import Mathlib

/-!
# sed-opal command-line tool (`sed.c`): a shallow embedding

The C source marshals command-line parameters into fixed-layout control
structures and forwards them through one `ioctl`.  The embedding keeps the
names of the C functions.  C strings are lists of bytes (the bytes before the
terminating NUL); a `char *` that may be `NULL` is an `Option CStr`.
Out-parameters are passed in and returned (`get_user user who` returns the
return code together with the new value of `*who`).  Diagnostics written to
`stderr` are not part of the model; the text `opal_error_to_human` prints on
`stdout` is.
-/

set_option autoImplicit false

namespace SedOpal

/-! ## C strings and the C library -/

/-- A C string: its bytes up to, and without, the terminating NUL. -/
abbrev CStr := List Nat

/-- The bytes of an ASCII string literal. -/
def cstr (s : String) : CStr := s.toList.map Char.toNat

/-- `errno.h`: `EINVAL`. -/
def EINVAL : Int := 22

/-- `errno.h`: `ENODEV`. -/
def ENODEV : Int := 19

/-- `tolower` in the C locale. -/
def tolower (c : Nat) : Nat := if 65 ≤ c ∧ c ≤ 90 then c + 32 else c

/-- `isspace` in the C locale: space, `\t`, `\n`, `\v`, `\f`, `\r`. -/
def isspace (c : Nat) : Bool := c == 32 || (9 ≤ c && c ≤ 13)

/-- `isdigit`. -/
def isdigit (c : Nat) : Bool := 48 ≤ c && c ≤ 57

/-- `strlen`. -/
def strlen (s : CStr) : Nat := s.length

/-- `strncasecmp a b n`: the difference of the first pair of bytes that differ
after `tolower`, among the first `n` bytes and not past a NUL; `0` when there is
none.  Reading past the end of a list reads the terminating NUL. -/
def strncasecmp : CStr → CStr → Nat → Int
  | _, _, 0 => 0
  | a, b, n + 1 =>
    let ca := tolower (a.headD 0)
    let cb := tolower (b.headD 0)
    if ca ≠ cb then (ca : Int) - (cb : Int)
    else if ca = 0 then 0
    else strncasecmp a.tail b.tail n

/-- The value of a run of decimal digit bytes, most significant first. -/
def digitsValue (ds : CStr) : Nat := ds.foldl (fun acc d => acc * 10 + (d - 48)) 0

/-- What `strtol`/`strtoul` scan in base 10: optional white space, an optional
sign, then the longest run of digits.  Returns whether a minus sign was read
and the digits (`[]` when there is no digit, i.e. no conversion). -/
def scanNumber (s : CStr) : Bool × CStr :=
  let s1 := s.dropWhile isspace
  match s1 with
  | 45 :: r => (true, r.takeWhile isdigit)
  | 43 :: r => (false, r.takeWhile isdigit)
  | _ => (false, s1.takeWhile isdigit)

/-- `strtol (nptr, &endptr, 10)` for a `long` of `longBits` bits.  `none` is the
case `endptr == nptr` (no digits: no conversion, the C function returns 0);
otherwise the value, clamped to `LONG_MIN .. LONG_MAX`. -/
def strtol (longBits : Nat) (s : CStr) : Option Int :=
  match scanNumber s with
  | (_, []) => none
  | (neg, ds) =>
    let v : Int := digitsValue ds
    let r : Int := if neg then -v else v
    let lmax : Int := 2 ^ (longBits - 1) - 1
    let lmin : Int := -(2 ^ (longBits - 1))
    some (if r > lmax then lmax else if r < lmin then lmin else r)

/-- `strtoul (nptr, &endptr, 10)` for an `unsigned long` of `longBits` bits.
`none` is the case `endptr == nptr`; otherwise the value, `ULONG_MAX` on
overflow, negated modulo `2 ^ longBits` after a minus sign. -/
def strtoul (longBits : Nat) (s : CStr) : Option Nat :=
  match scanNumber s with
  | (_, []) => none
  | (neg, ds) =>
    let v := digitsValue ds
    let umax := 2 ^ longBits - 1
    some (if v > umax then umax
          else if neg then (2 ^ longBits - v) % 2 ^ longBits else v)

/-- `strtok`, one call: `s` is the string scanned (the argument on the first
call, the saved position on a call with `NULL`).  Leading delimiters are
skipped; the token runs to the next delimiter, which is overwritten and
stepped over.  Returns the token (`none` for `NULL`) and the saved position. -/
def strtok (s : CStr) (delim : Nat) : Option CStr × CStr :=
  let s1 := s.dropWhile (fun c => c == delim)
  match s1 with
  | [] => (none, [])
  | _ :: _ =>
    (some (s1.takeWhile (fun c => c != delim)),
     (s1.dropWhile (fun c => c != delim)).drop 1)

/-- `snprintf (buf, size, "%s", s)`: at most `size - 1` bytes of `s` and a NUL
are written at the start of `buf`; nothing is written when `size = 0`.  The
return value is the length of `s`, whether or not it fitted.  For `s == NULL`
the C library of the target (glibc, musl) formats the text `(null)`. -/
def snprintf (buf : List Nat) (size : Nat) (s : Option CStr) : List Nat × Nat :=
  let src := s.getD (cstr "(null)")
  let out := if size = 0 then [] else src.take (size - 1) ++ [0]
  (out ++ buf.drop out.length, strlen src)

/-! ## What `sed.c` takes from `sed-opal.h` and from the C ABI -/

/-- Modelled from the spec: `sed-opal.h` is not among the sources, so the sizes
it declares are parameters: the number of bytes of `opal_key.key`
(`sizeof (key)`), `OPAL_MAX_LRS` (also the number of elements of
`opal_lr_act.lr`), and the widths in bits of the integer fields `key_len`,
`lr`, `num_lrs` and of one element of `opal_lr_act.lr`.  `longBits` is the
width of `long`, `unsigned long` and `size_t` on the target. -/
structure Target where
  keySize : Nat
  OPAL_MAX_LRS : Nat
  keyLenBits : Nat
  lrBits : Nat
  numLrsBits : Nat
  lrElemBits : Nat
  longBits : Nat
  deriving DecidableEq, Repr

/-- A 64-bit Linux target with the sizes of the kernel header
`include/uapi/linux/sed-opal.h`: a 256-byte key, nine ranges, `__u8` fields. -/
def linux64 : Target :=
  { keySize := 256, OPAL_MAX_LRS := 9, keyLenBits := 8, lrBits := 8,
    numLrsBits := 8, lrElemBits := 8, longBits := 64 }

/-- Modelled from the spec: `enum opal_user` of `sed-opal.h`, `OPAL_ADMIN1`
(identity 0). -/
def OPAL_ADMIN1 : Nat := 0

/-- Modelled from the spec: `enum opal_user` of `sed-opal.h`, `OPAL_USER1`
(user N is the value N). -/
def OPAL_USER1 : Nat := 1

/-- Modelled from the spec: `enum opal_user` of `sed-opal.h`, `OPAL_USER9`. -/
def OPAL_USER9 : Nat := 9

/-- Modelled from the spec: `enum opal_lock_state` of `sed-opal.h`; the three
lock types, whose numeric values the source never uses. -/
inductive opal_lock_state where
  | OPAL_RO
  | OPAL_RW
  | OPAL_LK
  deriving DecidableEq, Repr

/-- The request codes passed to `ioctl` (their numbers are in `sed-opal.h`). -/
inductive IoctlCmd where
  | IOC_OPAL_SAVE
  | IOC_OPAL_LOCK_UNLOCK
  | IOC_OPAL_TAKE_OWNERSHIP
  | IOC_OPAL_ACTIVATE_LSP
  | IOC_OPAL_REVERT_TPR
  | IOC_OPAL_LR_SETUP
  | IOC_OPAL_ADD_USR_TO_LR
  | IOC_OPAL_ENABLE_DISABLE_MBR
  | IOC_OPAL_SET_PW
  | IOC_OPAL_ACTIVATE_USR
  | IOC_OPAL_ERASE_LR
  | IOC_OPAL_SECURE_ERASE_LR
  deriving DecidableEq, Repr

/-! ## `opal_error_to_human` -/

/-- The table `opal_errors`. -/
def opal_errors : List String :=
  ["Success", "Not Authorized", "Unknown Error", "SP Busy", "SP Failed",
   "SP Disabled", "SP Frozen", "No Sessions Available", "Uniqueness Conflict",
   "Insufficient Space", "Insufficient Rows", "Invalid Function",
   "Invalid Parameter", "Invalid Reference", "Unknown Error",
   "TPER Malfunction", "Transaction Failure", "Response Overflow",
   "Authority Locked Out"]

/-- `ARRAY_SIZE (opal_errors)`. -/
def ARRAY_SIZE_opal_errors : Nat := opal_errors.length

/-- The conversion of an `int` to `size_t` that `error >= ARRAY_SIZE (..)`
performs: reduction modulo `2 ^ longBits`. -/
def toSizeT (longBits : Nat) (x : Int) : Nat := (x % (2 : Int) ^ longBits).toNat

/-- `opal_error_to_human (error)`: the text printed on `stdout` and the value
returned.  `errnoText` is `strerror (errno)` at the time of the call. -/
def opal_error_to_human (t : Target) (errnoText : String) (error : Int) : String × Int :=
  if error = 0x3f then ("Failed\n", error)
  else if toSizeT t.longBits error ≥ ARRAY_SIZE_opal_errors ∨ error < 0 then
    ("Unknown Error" ++ ("errno " ++ errnoText ++ "\n"), error)
  else (opal_errors.getD error.toNat "" ++ "\n", error)

/-! ## Opening the device -/

/-- What the system calls made by `open_dev` give: the return value of `open`,
that of `fstat`, and whether `S_ISBLK (st_mode)` holds. -/
structure DevCalls where
  open_ret : Int
  fstat_ret : Int
  is_blk : Bool
  deriving DecidableEq, Repr

/-- `open_dev (dev)`: the descriptor, or a negative value. -/
def open_dev (d : DevCalls) : Int :=
  if d.open_ret < 0 then d.open_ret
  else if d.fstat_ret < 0 then d.fstat_ret
  else if !d.is_blk then -ENODEV
  else d.open_ret

/-- `check_arg_dev (argc, argv)`. -/
def check_arg_dev (optind argc : Int) : Int := if optind ≥ argc then -EINVAL else 0

/-- `get_dev (argc, argv)`. -/
def get_dev (optind argc : Int) (d : DevCalls) : Int :=
  let ret := check_arg_dev optind argc
  if ret ≠ 0 then ret else open_dev d

/-- `parse_and_open (..)`; `parse_ret` is what `argconfig_parse` returns. -/
def parse_and_open (parse_ret optind argc : Int) (d : DevCalls) : Int :=
  if parse_ret ≠ 0 then parse_ret else get_dev optind argc d

/-! ## `get_user` and `get_lock` -/

/-- The conversion to `unsigned int` in `unum = strtol (..)`: reduction modulo
`2 ^ 32` (`unsigned int` has 32 bits on every Linux ABI). -/
def toUInt (x : Int) : Nat := (x % (2 : Int) ^ 32).toNat

/-- `get_user (user, &who)`: the return code and the new value of `*who`. -/
def get_user (t : Target) (user : CStr) (who : Nat) : Int × Nat :=
  if strlen user < 5 then (-EINVAL, who)
  else if strncasecmp user (cstr "admin") 5 = 0 then (0, OPAL_ADMIN1)
  else if strncasecmp user (cstr "user") 4 = 0 then
    match strtol t.longBits (user.drop 4) with
    | none => (-EINVAL, who)
    | some v =>
      let unum := toUInt v
      if unum < OPAL_USER1 ∨ unum > OPAL_USER9 then (-EINVAL, who)
      else (0, unum)
  else (-EINVAL, who)

/-- `get_lock (lock, &lstate)`: the return code and the new value of `*lstate`
(`none`: nothing has been written there since the initialiser). -/
def get_lock (lock : CStr) (lstate : Option opal_lock_state) :
    Int × Option opal_lock_state :=
  if strlen lock < 2 then (EINVAL, lstate)
  else if strncasecmp lock (cstr "RW") 2 = 0 then (0, some .OPAL_RW)
  else if strncasecmp lock (cstr "RO") 2 = 0 then (0, some .OPAL_RO)
  else if strncasecmp lock (cstr "LK") 2 = 0 then (0, some .OPAL_LK)
  else (EINVAL, lstate)

/-! ## The control structures of `sed-opal.h` -/

/-- Modelled from the spec: `struct opal_key` of `sed-opal.h`, an
authentication key: target range index, length, raw bytes. -/
structure opal_key where
  lr : Nat
  key_len : Nat
  key : List Nat
  deriving DecidableEq, Repr

/-- Modelled from the spec: `struct opal_session_info` of `sed-opal.h`, a
session descriptor: single-user-mode flag, requesting identity, embedded key. -/
structure opal_session_info where
  sum : Bool
  who : Nat
  opal_key : opal_key
  deriving DecidableEq, Repr

/-- Modelled from the spec: `struct opal_lock_unlock` of `sed-opal.h`. -/
structure opal_lock_unlock where
  session : opal_session_info
  l_state : Option opal_lock_state
  deriving DecidableEq, Repr

/-- Modelled from the spec: `struct opal_lr_act` of `sed-opal.h`. -/
structure opal_lr_act where
  key : opal_key
  sum : Bool
  num_lrs : Nat
  lr : List Nat
  deriving DecidableEq, Repr

/-- Modelled from the spec: `struct opal_user_lr_setup` of `sed-opal.h`. -/
structure opal_user_lr_setup where
  range_start : Nat
  range_length : Nat
  RLE : Bool
  WLE : Bool
  session : opal_session_info
  deriving DecidableEq, Repr

/-- Modelled from the spec: the values `OPAL_MBR_ENABLE` and
`OPAL_MBR_DISABLE` of `sed-opal.h`. -/
inductive opal_mbr where
  | OPAL_MBR_ENABLE
  | OPAL_MBR_DISABLE
  deriving DecidableEq, Repr

/-- Modelled from the spec: `struct opal_mbr_data` of `sed-opal.h`
(`enable_disable` is `none` until it is written). -/
structure opal_mbr_data where
  key : opal_key
  enable_disable : Option opal_mbr
  deriving DecidableEq, Repr

/-- Modelled from the spec: `struct opal_new_pw` of `sed-opal.h`. -/
structure opal_new_pw where
  session : opal_session_info
  new_user_pw : opal_session_info
  deriving DecidableEq, Repr

/-- An `opal_key` after the initialiser `= { }`. -/
def opal_key.zero (t : Target) : opal_key :=
  { lr := 0, key_len := 0, key := List.replicate t.keySize 0 }

/-- An `opal_session_info` after the initialiser `= { }`. -/
def opal_session_info.zero (t : Target) : opal_session_info :=
  { sum := false, who := 0, opal_key := opal_key.zero t }

/-! ## What a handler does -/

/-- How a call of a handler ends: it returns `code` without having called
`ioctl`; or it calls `ioctl (fd, cmd, &arg)` once and returns what
`opal_error_to_human` returns, having printed `printed`; or it dereferences a
`NULL` pointer. -/
inductive Outcome (P : Type) where
  | ret (code : Int)
  | ioctl (cmd : IoctlCmd) (arg : P) (printed : String) (code : Int)
  | fault
  deriving DecidableEq, Repr

/-- The control call a handler issued, if any: request code and payload. -/
def Outcome.issued {P : Type} : Outcome P → Option (IoctlCmd × P)
  | .ioctl cmd arg _ _ => some (cmd, arg)
  | _ => none

/-- The handler returned a non-zero code without having issued a control
call. -/
def Outcome.failed {P : Type} : Outcome P → Bool
  | .ret code => code != 0
  | _ => false

/-- The value a handler returned (`none` when it faulted). -/
def Outcome.returned {P : Type} : Outcome P → Option Int
  | .ret code => some code
  | .ioctl _ _ _ code => some code
  | .fault => none

/-- A run of a handler: whether `read_password` was called, and how it ended. -/
structure Run (P : Type) where
  prompted : Bool
  outcome : Outcome P
  deriving DecidableEq, Repr

/-- What the handler gets from outside: the value `parse_and_open` returns,
what `read_password ()` returns if it is called, what `ioctl` returns if it is
called, and `strerror (errno)` after it. -/
structure Env where
  fd : Int
  read_password : Option CStr
  ioctl_ret : Int
  errnoText : String
  deriving DecidableEq, Repr

/-- The `ioctl` call that ends a handler:
`return opal_error_to_human (ioctl (fd, cmd, &arg))`. -/
def call_ioctl {P : Type} (t : Target) (env : Env) (prompted : Bool)
    (cmd : IoctlCmd) (arg : P) : Run P :=
  let r := opal_error_to_human t env.errnoText env.ioctl_ret
  ⟨prompted, .ioctl cmd arg r.1 r.2⟩

/-- The value `fd==0?EINVAL:-fd` returned when `parse_and_open` gives `fd <= 0`. -/
def fd_error (fd : Int) : Int := if fd = 0 then EINVAL else -fd

/-- The statement `k.key_len = snprintf ((char *)k.key, sizeof (k.key), "%s", pw)`:
the return value is stored in the field `key_len`. -/
def set_key (t : Target) (k : opal_key) (pw : Option CStr) : opal_key :=
  let r := snprintf k.key t.keySize pw
  { k with key_len := r.2 % 2 ^ t.keyLenBits, key := r.1 }

/-- The statement `if (k.key_len == 0) { k.key_len = 1; k.key[0] = 0; }`. -/
def fix_empty_key (k : opal_key) : opal_key :=
  if k.key_len = 0 then { k with key_len := 1, key := k.key.set 0 0 } else k

/-! ## `do_generic_lkul` (save, lock-unlock, add-user-to-range) -/

/-- The local `struct config` of `do_generic_lkul` after option parsing. -/
structure lkul_config where
  lr : Fin 256
  user : Option CStr
  lock_type : Option CStr
  password : Option CStr
  sum : Bool
  deriving DecidableEq, Repr

/-- `do_generic_lkul`. -/
def do_generic_lkul (t : Target) (ioctl_cmd : IoctlCmd) (env : Env)
    (cfg : lkul_config) : Run opal_lock_unlock :=
  if env.fd ≤ 0 then ⟨false, .ret (fd_error env.fd)⟩
  else
    let incomplete := (!cfg.sum && cfg.user.isNone) || cfg.lock_type.isNone
    let ask := (incomplete || cfg.password.isNone) && (!incomplete && cfg.password.isNone)
    let password := if ask then env.read_password else cfg.password
    if (incomplete || cfg.password.isNone) && (incomplete || password.isNone) then
      ⟨ask, .ret EINVAL⟩
    else
      let oln : opal_lock_unlock := { session := opal_session_info.zero t, l_state := none }
      let oln := { oln with session.sum := cfg.sum }
      let u : Option (Int × Nat) :=
        if !cfg.sum then cfg.user.map (fun user => get_user t user oln.session.who)
        else some (0, oln.session.who)
      match u with
      | none => ⟨ask, .fault⟩
      | some (e, who) =>
        if e ≠ 0 then ⟨ask, .ret EINVAL⟩
        else
          let oln := { oln with session.who := who }
          match cfg.lock_type with
          | none => ⟨ask, .fault⟩
          | some lock =>
            let l := get_lock lock oln.l_state
            if l.1 ≠ 0 then ⟨ask, .ret EINVAL⟩
            else
              let oln := { oln with l_state := l.2 }
              let key := fix_empty_key (set_key t oln.session.opal_key password)
              let key := { key with lr := cfg.lr.val % 2 ^ t.lrBits }
              call_ioctl t env ask ioctl_cmd { oln with session.opal_key := key }

/-- `sed_save`. -/
def sed_save (t : Target) (env : Env) (cfg : lkul_config) : Run opal_lock_unlock :=
  do_generic_lkul t .IOC_OPAL_SAVE env cfg

/-- `sed_lock_unlock`. -/
def sed_lock_unlock (t : Target) (env : Env) (cfg : lkul_config) : Run opal_lock_unlock :=
  do_generic_lkul t .IOC_OPAL_LOCK_UNLOCK env cfg

/-- `sed_add_usr_to_lr`. -/
def sed_add_usr_to_lr (t : Target) (env : Env) (cfg : lkul_config) : Run opal_lock_unlock :=
  do_generic_lkul t .IOC_OPAL_ADD_USR_TO_LR env cfg

/-! ## `do_generic_opal` (take-ownership, revert-tper) -/

/-- The local `struct config` of `do_generic_opal` after option parsing. -/
structure opal_config where
  lr : Fin 256
  password : Option CStr
  deriving DecidableEq, Repr

/-- `do_generic_opal`. -/
def do_generic_opal (t : Target) (ioctl_cmd : IoctlCmd) (env : Env)
    (cfg : opal_config) : Run opal_key :=
  if env.fd ≤ 0 then ⟨false, .ret (fd_error env.fd)⟩
  else
    let ask := cfg.password.isNone
    let password := if ask then env.read_password else cfg.password
    if cfg.password.isNone && password.isNone then ⟨ask, .ret EINVAL⟩
    else
      let pw := set_key t (opal_key.zero t) password
      let pw := { pw with lr := cfg.lr.val % 2 ^ t.lrBits }
      call_ioctl t env ask ioctl_cmd pw

/-- `sed_ownership`. -/
def sed_ownership (t : Target) (env : Env) (cfg : opal_config) : Run opal_key :=
  do_generic_opal t .IOC_OPAL_TAKE_OWNERSHIP env cfg

/-- `sed_reverttper`. -/
def sed_reverttper (t : Target) (env : Env) (cfg : opal_config) : Run opal_key :=
  do_generic_opal t .IOC_OPAL_REVERT_TPR env cfg

/-! ## `sed_activatelsp` -/

/-- The local `struct config` of `sed_activatelsp` after option parsing. -/
structure activatelsp_config where
  sum : Bool
  password : Option CStr
  lr_str : Option CStr
  deriving DecidableEq, Repr

/-- The variables of the range-list loop of `sed_activatelsp`: the token `num`
(`none` for `NULL`), the position `strtok` saved, `count`, and the array
`opal_activate.lr`. -/
structure LrLoop where
  num : Option CStr
  saved : CStr
  count : Nat
  lr : List Nat
  deriving DecidableEq, Repr

/-- The loop `while (num != NULL && count < OPAL_MAX_LRS) { .. }` of
`sed_activatelsp`, run for at most `fuel` evaluations of its condition.
`none`: the loop is still running when the fuel is used up.  The `continue`
taken when `strtoul` converts nothing goes back to the condition with `num`
and `count` as they were. -/
def lr_loop (t : Target) : Nat → LrLoop → Option LrLoop
  | 0, _ => none
  | fuel + 1, st =>
    match st.num with
    | none => some st
    | some num =>
      if st.count < t.OPAL_MAX_LRS then
        match strtoul t.longBits num with
        | none => lr_loop t fuel st
        | some parsed =>
          let tk := strtok st.saved 44
          lr_loop t fuel
            { num := tk.1, saved := tk.2, count := st.count + 1,
              lr := st.lr.set st.count (parsed % 2 ^ t.lrElemBits) }
      else some st

/-- The state in which the loop is entered: `num = strtok (cfg.lr_str, ",")`,
`count = 0`, the array as the initialiser `= { 0 }` left it. -/
def lr_loop_init (t : Target) (lr_str : CStr) : LrLoop :=
  let tk := strtok lr_str 44
  { num := tk.1, saved := tk.2, count := 0, lr := List.replicate t.OPAL_MAX_LRS 0 }

/-- `sed_activatelsp`, with `fuel` for its loop; `none` when the loop does not
end within the fuel. -/
def sed_activatelsp (t : Target) (fuel : Nat) (env : Env)
    (cfg : activatelsp_config) : Option (Run opal_lr_act) :=
  if env.fd ≤ 0 then some ⟨false, .ret (fd_error env.fd)⟩
  else
    let nolr := cfg.sum && cfg.lr_str.isNone
    let ask := (cfg.password.isNone || nolr) && (!nolr && cfg.password.isNone)
    let password := if ask then env.read_password else cfg.password
    if (cfg.password.isNone || nolr) && (password.isNone || nolr) then
      some ⟨ask, .ret EINVAL⟩
    else
      let act : opal_lr_act :=
        { key := opal_key.zero t, sum := false, num_lrs := 0,
          lr := List.replicate t.OPAL_MAX_LRS 0 }
      let act := { act with sum := cfg.sum }
      let parsed : Option opal_lr_act :=
        match cfg.lr_str with
        | none => some { act with num_lrs := 1 % 2 ^ t.numLrsBits }
        | some lr_str =>
          (lr_loop t fuel (lr_loop_init t lr_str)).map fun st =>
            { act with lr := st.lr, num_lrs := st.count % 2 ^ t.numLrsBits }
      parsed.map fun act =>
        call_ioctl t env ask .IOC_OPAL_ACTIVATE_LSP { act with key := set_key t act.key password }

/-! ## `sed_setuplr` -/

/-- The local `struct config` of `sed_setuplr` after option parsing. -/
structure setuplr_config where
  lr : Fin 256
  user : Option CStr
  password : Option CStr
  sum : Bool
  RLE : Bool
  WLE : Bool
  range_start : Nat
  range_length : Nat
  deriving DecidableEq, Repr

/-- `sed_setuplr`.  `~0` compared with a `size_t` is `SIZE_MAX`. -/
def sed_setuplr (t : Target) (env : Env) (cfg : setuplr_config) :
    Run opal_user_lr_setup :=
  if env.fd ≤ 0 then ⟨false, .ret (fd_error env.fd)⟩
  else
    let size_max := 2 ^ t.longBits - 1
    let incomplete := cfg.range_start == size_max || cfg.range_length == size_max
      || (!cfg.sum && cfg.user.isNone)
    let ask := (incomplete || cfg.password.isNone) && (!incomplete && cfg.password.isNone)
    let password := if ask then env.read_password else cfg.password
    if (incomplete || cfg.password.isNone) && (incomplete || password.isNone) then
      ⟨ask, .ret EINVAL⟩
    else
      let setup : opal_user_lr_setup :=
        { range_start := 0, range_length := 0, RLE := false, WLE := false,
          session := opal_session_info.zero t }
      let u : Option (Int × Nat) :=
        if !cfg.sum then cfg.user.map (fun user => get_user t user setup.session.who)
        else some (0, setup.session.who)
      match u with
      | none => ⟨ask, .fault⟩
      | some (e, who) =>
        if e ≠ 0 then ⟨ask, .ret (-EINVAL)⟩
        else
          let key := fix_empty_key (set_key t setup.session.opal_key password)
          let key := { key with lr := cfg.lr.val % 2 ^ t.lrBits }
          call_ioctl t env ask .IOC_OPAL_LR_SETUP
            { range_start := cfg.range_start, range_length := cfg.range_length,
              RLE := cfg.RLE, WLE := cfg.WLE,
              session := { sum := cfg.sum, who := who, opal_key := key } }

/-! ## `sed_shadowmbr` -/

/-- The local `struct config` of `sed_shadowmbr` after option parsing. -/
structure shadowmbr_config where
  password : Option CStr
  enable_mbr : Bool
  deriving DecidableEq, Repr

/-- `sed_shadowmbr`. -/
def sed_shadowmbr (t : Target) (env : Env) (cfg : shadowmbr_config) :
    Run opal_mbr_data :=
  if env.fd ≤ 0 then ⟨false, .ret (fd_error env.fd)⟩
  else
    let ask := cfg.password.isNone
    let password := if ask then env.read_password else cfg.password
    if cfg.password.isNone && password.isNone then ⟨ask, .ret EINVAL⟩
    else
      let mbr : opal_mbr_data := { key := opal_key.zero t, enable_disable := none }
      let e : opal_mbr := if cfg.enable_mbr then .OPAL_MBR_ENABLE else .OPAL_MBR_DISABLE
      let mbr := { mbr with enable_disable := some e }
      call_ioctl t env ask .IOC_OPAL_ENABLE_DISABLE_MBR
        { mbr with key := set_key t mbr.key password }

/-! ## `sed_setpw` -/

/-- The local `struct config` of `sed_setpw` after option parsing. -/
structure setpw_config where
  lsp_authority : Option CStr
  user_for_pw : Option CStr
  new_password : Option CStr
  authority_pw : Option CStr
  sum : Bool
  deriving DecidableEq, Repr

/-- The statement `k.lr = who - 1`: the difference, reduced to the width of
the field `lr` in which it is stored. -/
def lr_of_who (t : Target) (who : Nat) : Nat :=
  (((who : Int) - 1) % (2 : Int) ^ t.lrBits).toNat

/-- `sed_setpw`. -/
def sed_setpw (t : Target) (env : Env) (cfg : setpw_config) : Run opal_new_pw :=
  if env.fd ≤ 0 then ⟨false, .ret (fd_error env.fd)⟩
  else
    match cfg.user_for_pw, cfg.lsp_authority, cfg.new_password, cfg.authority_pw with
    | some user_for_pw, some lsp_authority, some new_password, some authority_pw =>
      let pw : opal_new_pw :=
        { session := opal_session_info.zero t, new_user_pw := opal_session_info.zero t }
      let u := get_user t user_for_pw pw.new_user_pw.who
      if u.1 ≠ 0 then ⟨false, .ret (-EINVAL)⟩
      else
        let pw := { pw with new_user_pw.who := u.2 }
        let a := get_user t lsp_authority pw.session.who
        if a.1 ≠ 0 then ⟨false, .ret (-EINVAL)⟩
        else
          let pw := { pw with session.who := a.2 }
          let pw := { pw with session.sum := cfg.sum }
          let pw := { pw with session.opal_key.lr := lr_of_who t pw.session.who }
          let skey := fix_empty_key (set_key t pw.session.opal_key (some authority_pw))
          let pw := { pw with session.opal_key := skey }
          let pw := { pw with new_user_pw.opal_key.lr := lr_of_who t pw.new_user_pw.who }
          let nkey := set_key t pw.new_user_pw.opal_key (some new_password)
          let pw := { pw with new_user_pw.opal_key := nkey }
          call_ioctl t env false .IOC_OPAL_SET_PW pw
    | _, _, _, _ => ⟨false, .ret EINVAL⟩

/-! ## `sed_enable_user`, `sed_erase_lr`, `sed_secure_erase_lr` -/

/-- The local `struct config` of `sed_enable_user` after option parsing. -/
structure enable_user_config where
  user : Option CStr
  password : Option CStr
  deriving DecidableEq, Repr

/-- `sed_enable_user`. -/
def sed_enable_user (t : Target) (env : Env) (cfg : enable_user_config) :
    Run opal_session_info :=
  if env.fd ≤ 0 then ⟨false, .ret (fd_error env.fd)⟩
  else
    let ask := (cfg.user.isNone || cfg.password.isNone)
      && (cfg.user.isSome && cfg.password.isNone)
    let password := if ask then env.read_password else cfg.password
    if (cfg.user.isNone || cfg.password.isNone) && (cfg.user.isNone || password.isNone) then
      ⟨ask, .ret EINVAL⟩
    else
      let usr := opal_session_info.zero t
      match cfg.user with
      | none => ⟨ask, .fault⟩
      | some user =>
        let u := get_user t user usr.who
        if u.1 ≠ 0 then ⟨ask, .ret EINVAL⟩
        else
          let usr := { usr with who := u.2 }
          if usr.who = OPAL_ADMIN1 then ⟨ask, .ret EINVAL⟩
          else
            let key := set_key t usr.opal_key password
            let key := { key with lr := 0 }
            call_ioctl t env ask .IOC_OPAL_ACTIVATE_USR { usr with opal_key := key }

/-- The local `struct config` of `sed_erase_lr` after option parsing. -/
structure erase_lr_config where
  lr : Fin 256
  user : Option CStr
  password : Option CStr
  sum : Bool
  deriving DecidableEq, Repr

/-- `sed_erase_lr`.  The local `session` has no initialiser: `session0` is what
the stack holds there when the function is entered. -/
def sed_erase_lr (t : Target) (session0 : opal_session_info) (env : Env)
    (cfg : erase_lr_config) : Run opal_session_info :=
  if env.fd ≤ 0 then ⟨false, .ret (fd_error env.fd)⟩
  else
    let incomplete := !cfg.sum && cfg.user.isNone
    let ask := (incomplete || cfg.password.isNone) && (!incomplete && cfg.password.isNone)
    let password := if ask then env.read_password else cfg.password
    if (incomplete || cfg.password.isNone) && (incomplete || password.isNone) then
      ⟨ask, .ret EINVAL⟩
    else
      let session := { session0 with sum := cfg.sum }
      let u : Option (Int × Nat) :=
        if !cfg.sum then cfg.user.map (fun user => get_user t user session.who)
        else some (0, session.who)
      match u with
      | none => ⟨ask, .fault⟩
      | some (e, who) =>
        if e ≠ 0 then ⟨ask, .ret EINVAL⟩
        else
          let session := { session with who := who }
          let key := set_key t session.opal_key password
          let key := { key with lr := cfg.lr.val % 2 ^ t.lrBits }
          call_ioctl t env ask .IOC_OPAL_ERASE_LR { session with opal_key := key }

/-- The local `struct config` of `sed_secure_erase_lr` after option parsing. -/
structure secure_erase_lr_config where
  user : Option CStr
  password : Option CStr
  lr : Fin 256
  sum : Bool
  deriving DecidableEq, Repr

/-- `sed_secure_erase_lr`. -/
def sed_secure_erase_lr (t : Target) (env : Env) (cfg : secure_erase_lr_config) :
    Run opal_session_info :=
  if env.fd ≤ 0 then ⟨false, .ret (fd_error env.fd)⟩
  else
    let ask := (cfg.user.isNone || cfg.password.isNone)
      && (cfg.user.isSome && cfg.password.isNone)
    let password := if ask then env.read_password else cfg.password
    if (cfg.user.isNone || cfg.password.isNone) && (cfg.user.isNone && password.isNone) then
      ⟨ask, .ret EINVAL⟩
    else
      let usr := opal_session_info.zero t
      match cfg.user with
      | none => ⟨ask, .fault⟩
      | some user =>
        let u := get_user t user usr.who
        if u.1 ≠ 0 then ⟨ask, .ret EINVAL⟩
        else
          let usr := { usr with who := u.2 }
          let key := set_key t usr.opal_key password
          let key := { key with lr := 0 }
          call_ioctl t env ask .IOC_OPAL_SECURE_ERASE_LR { usr with opal_key := key }

/-- An environment in which the device opened (descriptor 3) and in which
neither the prompt nor the control call succeeds in anything: `read_password`
gives `NULL`, `ioctl` gives 0. -/
def env3 : Env := { fd := 3, read_password := none, ioctl_ret := 0, errnoText := "Success" }

/-! ## Vocabulary of the claims -/

/-- The three lock-type words. -/
def lockWords : List CStr := [cstr "RW", cstr "RO", cstr "LK"]

/-- Equality of two strings ignoring letter case. -/
def eqNoCase (a b : CStr) : Prop := a.map tolower = b.map tolower

instance (a b : CStr) : Decidable (eqNoCase a b) := by
  unfold eqNoCase
  infer_instance

/-- The string `s` begins, ignoring letter case, with `word`. -/
def beginsNoCase (s word : CStr) : Prop := eqNoCase (s.take word.length) word

instance (s word : CStr) : Decidable (beginsNoCase s word) := by
  unfold beginsNoCase
  infer_instance

/-- The decimal numeral with the digits `ds`, most significant first, as a
string: digit `d` is the byte `d + 48`. -/
def numeral (ds : List Nat) : CStr := ds.map (fun d => d + 48)

/-- The number a list of decimal digits, most significant first, denotes. -/
def numeralValue (ds : List Nat) : Nat := Nat.ofDigits 10 ds.reverse

/-- A list of digits is a decimal numeral: not empty, every digit below 10. -/
def IsNumeral (ds : List Nat) : Prop := ds ≠ [] ∧ ∀ d ∈ ds, d < 10

/-- The strings `xs` written one after the other with a comma between them. -/
def joinComma : List CStr → CStr
  | [] => []
  | [a] => a
  | a :: b :: r => a ++ 44 :: joinComma (b :: r)

/-! ## Theorems -/

/-! ### `opal_error_to_human` -/

theorem toSizeT_of_nonneg (n : Nat) (c : Int) (h0 : 0 ≤ c) (h : c < (2 : Int) ^ n) :
    toSizeT n c = c.toNat := by
  unfold toSizeT
  rw [Int.emod_eq_of_lt h0 h]

/-- C7: for every `int` result code `c`, `opal_error_to_human` prints "Failed"
when `c = 0x3F`, whatever the table bounds; otherwise the `c`-th entry of the
nineteen-entry table when `0 <= c <= 18` (so "Success" for 0); otherwise
(`c < 0` or `c >= 19`, e.g. 24) "Unknown Error" with the last system error
text.  The code is returned unchanged in every case. -/
theorem opal_error_to_human_spec (t : Target) (errnoText : String) (c : Int)
    (hbits : 32 ≤ t.longBits) (hlo : -(2 : Int) ^ 31 ≤ c) (hhi : c < (2 : Int) ^ 31) :
    opal_errors.length = 19 ∧ opal_errors.get? 0 = some "Success" ∧
    (opal_error_to_human t errnoText c).2 = c ∧
    (c = 0x3f → (opal_error_to_human t errnoText c).1 = "Failed\n") ∧
    (c ≠ 0x3f → 0 ≤ c → c ≤ 18 →
      ∃ s, opal_errors.get? c.toNat = some s ∧
        (opal_error_to_human t errnoText c).1 = s ++ "\n") ∧
    (c ≠ 0x3f → (c < 0 ∨ 19 ≤ c) →
      (opal_error_to_human t errnoText c).1
        = "Unknown Error" ++ ("errno " ++ errnoText ++ "\n")) := by
  have hpow : (2 : Int) ^ 31 ≤ (2 : Int) ^ t.longBits :=
    pow_le_pow_right₀ (by norm_num) (by omega)
  have hlen : opal_errors.length = 19 := by decide
  refine ⟨hlen, by decide, ?_, ?_, ?_, ?_⟩
  · unfold opal_error_to_human
    split
    · rfl
    · split <;> rfl
  · intro h
    simp [opal_error_to_human, h]
  · intro h h0 h18
    have hs : toSizeT t.longBits c = c.toNat := toSizeT_of_nonneg _ _ h0 (by omega)
    have hlt : c.toNat < opal_errors.length := by omega
    refine ⟨opal_errors.get ⟨c.toNat, hlt⟩, List.get?_eq_get hlt, ?_⟩
    have hn : ¬ (toSizeT t.longBits c ≥ ARRAY_SIZE_opal_errors ∨ c < 0) := by
      unfold ARRAY_SIZE_opal_errors
      omega
    simp only [opal_error_to_human, h, hn, if_false]
    congr 1
    exact (List.getD_eq_getElem _ _ hlt)
  · intro h hout
    have hy : toSizeT t.longBits c ≥ ARRAY_SIZE_opal_errors ∨ c < 0 := by
      rcases hout with hneg | hge
      · exact Or.inr hneg
      · left
        have h0 : 0 ≤ c := by omega
        rw [toSizeT_of_nonneg _ _ h0 (by omega)]
        unfold ARRAY_SIZE_opal_errors
        omega
    simp only [opal_error_to_human, h, hy, if_false, if_true]

/-- C7 at code 24 on the 64-bit target: the unknown-error path. -/
theorem opal_error_to_human_spec_witness :
    (opal_error_to_human linux64 "Inappropriate ioctl for device" 24).1
      = "Unknown Errorerrno Inappropriate ioctl for device\n" :=
  (opal_error_to_human_spec linux64 "Inappropriate ioctl for device" 24
    (by decide) (by decide) (by decide)).2.2.2.2.2 (by decide) (Or.inr (by decide))

/-! ### Keys -/

theorem mod_ne_pred_of_window (n k m : Nat) (hk : 1 ≤ k) (h1 : k ≤ n)
    (h2 : n + 1 < k + m) : n % m ≠ k - 1 := by
  intro h
  have hd := Nat.div_add_mod n m
  rcases Nat.eq_zero_or_pos (n / m) with h0 | hpos
  · rw [h0] at hd
    simp at hd
    omega
  · have hle : m ≤ m * (n / m) := Nat.le_mul_of_pos_right _ hpos
    omega

theorem snprintf_fst_of_length_ge (buf : List Nat) (size : Nat) (s : CStr)
    (hsize : 1 ≤ size) (hbuf : buf.length = size) (hs : size ≤ s.length + 1) :
    (snprintf buf size (some s)).1 = s.take (size - 1) ++ [0] := by
  have h0 : ¬ size = 0 := by omega
  simp only [snprintf, Option.getD_some, h0, if_false]
  rw [List.drop_of_length_le, List.append_nil]
  simp only [List.length_append, List.length_take, List.length_singleton]
  omega

/-- The control call `do_generic_opal` issues once the device is open and a
password is on the command line. -/
theorem do_generic_opal_issued (t : Target) (cmd : IoctlCmd) (env : Env)
    (lr : Fin 256) (pw : CStr) (hfd : 0 < env.fd) :
    (do_generic_opal t cmd env ⟨lr, some pw⟩).outcome.issued
      = some (cmd, { set_key t (opal_key.zero t) (some pw) with
                      lr := lr.val % 2 ^ t.lrBits }) := by
  have hfd' : ¬ env.fd ≤ 0 := by omega
  simp only [do_generic_opal, hfd', if_false, Option.isNone_some, Bool.false_and,
    call_ioctl, Outcome.issued]
  rfl

/-- C1: a password of `sizeof (key)` bytes or more (and fewer than
`sizeof (key) - 1` plus the range of the field `key_len`) given to
`do_generic_opal` (take-ownership, revert-tper): the control call is issued
with a key buffer holding the first `sizeof (key) - 1` password bytes and a
NUL, and with `key_len` equal to the length of the whole password reduced to
the width of the field, which is not the number of password bytes stored. -/
theorem do_generic_opal_key_len_long_password (t : Target) (cmd : IoctlCmd)
    (env : Env) (lr : Fin 256) (pw : CStr)
    (hk : 1 ≤ t.keySize) (hfd : 0 < env.fd) (hlong : t.keySize ≤ pw.length)
    (hwin : pw.length + 1 < t.keySize + 2 ^ t.keyLenBits) :
    ∃ k, (do_generic_opal t cmd env ⟨lr, some pw⟩).outcome.issued = some (cmd, k) ∧
      k.key = pw.take (t.keySize - 1) ++ [0] ∧
      k.key_len = pw.length % 2 ^ t.keyLenBits ∧
      k.key_len ≠ (pw.take (t.keySize - 1)).length := by
  refine ⟨_, do_generic_opal_issued t cmd env lr pw hfd, ?_, ?_, ?_⟩
  · simp only [set_key, opal_key.zero]
    exact snprintf_fst_of_length_ge _ _ _ hk (by simp) (by omega)
  · simp [set_key, snprintf, strlen]
  · simp only [set_key, snprintf, strlen, Option.getD_some, List.length_take]
    rw [Nat.min_eq_left (by omega)]
    exact mod_ne_pred_of_window _ _ _ hk hlong hwin

/-- C1 on the 64-bit target: a password of 300 bytes `a` is recorded with
`key_len = 44` while 255 of its bytes are stored. -/
theorem do_generic_opal_key_len_long_password_witness :
    ∃ k, (do_generic_opal linux64 .IOC_OPAL_TAKE_OWNERSHIP env3
        ⟨0, some (List.replicate 300 97)⟩).outcome.issued
          = some (.IOC_OPAL_TAKE_OWNERSHIP, k) ∧
      k.key = (List.replicate 300 97).take (linux64.keySize - 1) ++ [0] ∧
      k.key_len = (List.replicate 300 97).length % 2 ^ linux64.keyLenBits ∧
      k.key_len ≠ ((List.replicate 300 97).take (linux64.keySize - 1)).length :=
  do_generic_opal_key_len_long_password linux64 .IOC_OPAL_TAKE_OWNERSHIP env3 0
    (List.replicate 300 97) (by decide) (by decide)
    (by rw [List.length_replicate]; decide) (by rw [List.length_replicate]; decide)

/-- C4: an empty password given to `do_generic_opal` (take-ownership,
revert-tper): the control call is issued with `key_len = 0`; the statement
that turns an empty key into one zero byte of length 1 is not there. -/
theorem do_generic_opal_empty_password (t : Target) (cmd : IoctlCmd)
    (env : Env) (lr : Fin 256) (hfd : 0 < env.fd) :
    ∃ k, (do_generic_opal t cmd env ⟨lr, some []⟩).outcome.issued = some (cmd, k) ∧
      k.key_len = 0 := by
  refine ⟨_, do_generic_opal_issued t cmd env lr [] hfd, ?_⟩
  simp [set_key, snprintf, strlen]

/-- C4 on the 64-bit target, take-ownership with `-p ""`. -/
theorem do_generic_opal_empty_password_witness :
    ∃ k, (do_generic_opal linux64 .IOC_OPAL_TAKE_OWNERSHIP env3
        ⟨0, some []⟩).outcome.issued = some (.IOC_OPAL_TAKE_OWNERSHIP, k) ∧
      k.key_len = 0 :=
  do_generic_opal_empty_password linux64 .IOC_OPAL_TAKE_OWNERSHIP env3 0 (by decide)

/-! ### `get_user` on two tokens -/

theorem strtol_one (n : Nat) (hn : 2 ≤ n) : strtol n [49] = some 1 := by
  have h2 : (2 : Int) ^ 1 ≤ (2 : Int) ^ (n - 1) :=
    pow_le_pow_right₀ (by norm_num) (by omega)
  have hpos : (0 : Int) < (2 : Int) ^ (n - 1) := by positivity
  have hv : ((digitsValue [49] : Nat) : Int) = 1 := by decide
  have hs : scanNumber [49] = (false, [49]) := by decide
  unfold strtol
  rw [hs]
  simp only [hv, Bool.false_eq_true, if_false]
  rw [if_neg (by omega), if_neg (by omega)]

/-- The token `user1` resolves to user 1 on every target whose `long` has at
least two bits. -/
theorem get_user_user1 (t : Target) (who : Nat) (hlong : 2 ≤ t.longBits) :
    get_user t (cstr "user1") who = (0, 1) := by
  have h1 : ¬ strlen (cstr "user1") < 5 := by decide
  have h2 : ¬ strncasecmp (cstr "user1") (cstr "admin") 5 = 0 := by decide
  have h3 : strncasecmp (cstr "user1") (cstr "user") 4 = 0 := by decide
  have h4 : (cstr "user1").drop 4 = [49] := by decide
  have h5 : ¬ (1 < OPAL_USER1 ∨ 1 > OPAL_USER9) := by decide
  have h6 : toUInt 1 = 1 := by decide
  simp only [get_user, h1, h2, h3, h4, strtol_one _ hlong, h5, h6, if_false, if_true]

/-- The token `user4294967297` resolves to user 1 where `long` has 64 bits:
`strtol` gives `2 ^ 32 + 1`, which the assignment to `unsigned int unum`
reduces to 1 before the range test. -/
theorem get_user_user4294967297 (t : Target) (who : Nat) (hlong : t.longBits = 64) :
    get_user t (cstr "user4294967297") who = (0, 1) := by
  have h1 : ¬ strlen (cstr "user4294967297") < 5 := by decide
  have h2 : ¬ strncasecmp (cstr "user4294967297") (cstr "admin") 5 = 0 := by decide
  have h3 : strncasecmp (cstr "user4294967297") (cstr "user") 4 = 0 := by decide
  have h4 : strtol 64 ((cstr "user4294967297").drop 4) = some 4294967297 := by decide
  have h5 : ¬ (1 < OPAL_USER1 ∨ 1 > OPAL_USER9) := by decide
  have h6 : toUInt 4294967297 = 1 := by decide
  simp only [get_user, hlong, h1, h2, h3, h4, h5, h6, if_false, if_true]

/-! ### `sed_enable_user` and `sed_secure_erase_lr` on a resolved user -/

/-- The control call `sed_enable_user` issues when the device is open, a
password is on the command line and the token resolves to an identity other
than Admin1. -/
theorem sed_enable_user_issued (t : Target) (env : Env) (user pw : CStr) (n : Nat)
    (hfd : 0 < env.fd) (hu : get_user t user 0 = (0, n)) (hn : n ≠ OPAL_ADMIN1) :
    (sed_enable_user t env ⟨some user, some pw⟩).outcome.issued
      = some (.IOC_OPAL_ACTIVATE_USR,
          { sum := false, who := n,
            opal_key := { set_key t (opal_key.zero t) (some pw) with lr := 0 } }) := by
  have hfd' : ¬ env.fd ≤ 0 := by omega
  simp only [sed_enable_user, hfd', if_false, Option.isNone_some, Option.isSome_some,
    Bool.false_and, Bool.or_false, Bool.and_false, opal_session_info.zero, hu, hn,
    call_ioctl, Outcome.issued, ne_eq, not_true_eq_false, Bool.false_eq_true]

/-- What `sed_secure_erase_lr` does when the device is open, a user that
resolves is given, and the password is either on the command line or asked
for: the control call is issued with the password obtained, be it `NULL`. -/
theorem sed_secure_erase_lr_issued (t : Target) (env : Env) (user : CStr)
    (pw : Option CStr) (lr : Fin 256) (sum : Bool) (n : Nat)
    (hfd : 0 < env.fd) (hu : get_user t user 0 = (0, n)) :
    sed_secure_erase_lr t env ⟨some user, pw, lr, sum⟩
      = call_ioctl t env pw.isNone .IOC_OPAL_SECURE_ERASE_LR
          { sum := false, who := n,
            opal_key := { set_key t (opal_key.zero t)
                            (if pw.isNone then env.read_password else pw) with lr := 0 } } := by
  have hfd' : ¬ env.fd ≤ 0 := by omega
  cases pw <;>
  simp [sed_secure_erase_lr, hfd', opal_session_info.zero, hu]

/-- C2: the token `user4294967297` is "user" followed by a decimal number
outside 1..9, yet where `long` has 64 bits `get_user` returns 0 and sets the
identity to user 1, and `sed_enable_user` issues the control call for user 1. -/
theorem get_user_accepts_number_out_of_range (t : Target) (env : Env) (pw : CStr)
    (who : Nat) (hlong : t.longBits = 64) (hfd : 0 < env.fd) :
    get_user t (cstr "user4294967297") who = (0, OPAL_USER1) ∧
    ∃ k, (sed_enable_user t env ⟨some (cstr "user4294967297"), some pw⟩).outcome.issued
        = some (.IOC_OPAL_ACTIVATE_USR, k) ∧ k.who = OPAL_USER1 :=
  ⟨get_user_user4294967297 t who hlong,
   _, sed_enable_user_issued t env _ pw 1 hfd (get_user_user4294967297 t 0 hlong)
        (by decide), rfl⟩

/-- C2 on the 64-bit target. -/
theorem get_user_accepts_number_out_of_range_witness :
    get_user linux64 (cstr "user4294967297") 0 = (0, OPAL_USER1) ∧
    ∃ k, (sed_enable_user linux64 env3
        ⟨some (cstr "user4294967297"), some (cstr "pw")⟩).outcome.issued
        = some (.IOC_OPAL_ACTIVATE_USR, k) ∧ k.who = OPAL_USER1 :=
  get_user_accepts_number_out_of_range linux64 env3 (cstr "pw") 0 rfl (by decide)

/-- C8: `sed_secure_erase_lr` with a user and no password, when
`read_password` returns `NULL`: the prompt is attempted, and the control call
is issued all the same, with the key `snprintf` makes of the `NULL` pointer. -/
theorem sed_secure_erase_lr_without_password (t : Target) (env : Env)
    (lr : Fin 256) (sum : Bool) (hlong : 2 ≤ t.longBits) (hfd : 0 < env.fd)
    (hrp : env.read_password = none) :
    (sed_secure_erase_lr t env ⟨some (cstr "user1"), none, lr, sum⟩).prompted = true ∧
    ∃ k, (sed_secure_erase_lr t env ⟨some (cstr "user1"), none, lr, sum⟩).outcome.issued
        = some (.IOC_OPAL_SECURE_ERASE_LR, k) ∧
      k.opal_key = { set_key t (opal_key.zero t) none with lr := 0 } := by
  rw [sed_secure_erase_lr_issued t env _ none lr sum 1 hfd (get_user_user1 t 0 hlong)]
  refine ⟨rfl, _, rfl, ?_⟩
  simp [hrp]

/-- C8 on the 64-bit target, secure-erase-range `-u user1` with no password
to be had. -/
theorem sed_secure_erase_lr_without_password_witness :
    (sed_secure_erase_lr linux64 env3 ⟨some (cstr "user1"), none, 0, false⟩).prompted = true ∧
    ∃ k, (sed_secure_erase_lr linux64 env3
        ⟨some (cstr "user1"), none, 0, false⟩).outcome.issued
        = some (.IOC_OPAL_SECURE_ERASE_LR, k) ∧
      k.opal_key = { set_key linux64 (opal_key.zero linux64) none with lr := 0 } :=
  sed_secure_erase_lr_without_password linux64 env3 0 false (by decide) (by decide) rfl

/-- C9: `sed_secure_erase_lr` with a user, a password and any range index
`--lr`: the control call is issued with range index 0 in the key. -/
theorem sed_secure_erase_lr_range_index (t : Target) (env : Env) (pw : CStr)
    (lr : Fin 256) (sum : Bool) (hlong : 2 ≤ t.longBits) (hfd : 0 < env.fd) :
    ∃ k, (sed_secure_erase_lr t env ⟨some (cstr "user1"), some pw, lr, sum⟩).outcome.issued
        = some (.IOC_OPAL_SECURE_ERASE_LR, k) ∧ k.opal_key.lr = 0 := by
  rw [sed_secure_erase_lr_issued t env _ (some pw) lr sum 1 hfd (get_user_user1 t 0 hlong)]
  exact ⟨_, rfl, rfl⟩

/-- C9 on the 64-bit target, secure-erase-range `-u user1 -p pw --lr 1`. -/
theorem sed_secure_erase_lr_range_index_witness :
    ∃ k, (sed_secure_erase_lr linux64 env3
        ⟨some (cstr "user1"), some (cstr "pw"), 1, false⟩).outcome.issued
        = some (.IOC_OPAL_SECURE_ERASE_LR, k) ∧ k.opal_key.lr = 0 :=
  sed_secure_erase_lr_range_index linux64 env3 (cstr "pw") 1 false (by decide) (by decide)

/-- The part of C9 that holds: whenever `sed_erase_lr` issues the control
call, the range index in the key is the one given with `--lr`, as far as the
field `lr` holds it. -/
theorem sed_erase_lr_range_index (t : Target) (session0 : opal_session_info)
    (env : Env) (cfg : erase_lr_config) (cmd : IoctlCmd) (k : opal_session_info)
    (h : (sed_erase_lr t session0 env cfg).outcome.issued = some (cmd, k)) :
    k.opal_key.lr = cfg.lr.val % 2 ^ t.lrBits := by
  unfold sed_erase_lr at h
  simp only [call_ioctl] at h
  repeat' split at h
  all_goals first
    | (simp [Outcome.issued] at h; done)
    | (simp only [Outcome.issued, Option.some.injEq, Prod.mk.injEq] at h
       obtain ⟨_, rfl⟩ := h
       rfl)

/-! ### `get_lock` -/

theorem cstr_RW : cstr "RW" = [82, 87] := by decide

theorem cstr_RO : cstr "RO" = [82, 79] := by decide

theorem cstr_LK : cstr "LK" = [76, 75] := by decide

/-- `strncasecmp` of a string of at least two bytes with a two-byte word,
over two bytes. -/
theorem strncasecmp_two (a b : Nat) (rest : CStr) (x y : Nat) (hx : tolower x ≠ 0) :
    strncasecmp (a :: b :: rest) [x, y] 2 = 0 ↔
      tolower a = tolower x ∧ tolower b = tolower y := by
  by_cases h1 : tolower a = tolower x
  · by_cases h2 : tolower b = tolower y
    · simp [strncasecmp, h1, h2]
    · have h2' : ¬ ((tolower b : Int) - (tolower y : Int) = 0) := by
        rw [sub_eq_zero]; exact_mod_cast h2
      simp [strncasecmp, h1, h2, hx, h2']
  · have h1' : ¬ ((tolower a : Int) - (tolower x : Int) = 0) := by
      rw [sub_eq_zero]; exact_mod_cast h1
    simp [strncasecmp, h1, h1']

/-- What `get_lock` does with a token of at least two bytes: it looks at the
first two, lowered, and at nothing else. -/
theorem get_lock_cons_cons (a b : Nat) (rest : CStr) (lstate : Option opal_lock_state) :
    get_lock (a :: b :: rest) lstate =
      if tolower a = 114 ∧ tolower b = 119 then (0, some .OPAL_RW)
      else if tolower a = 114 ∧ tolower b = 111 then (0, some .OPAL_RO)
      else if tolower a = 108 ∧ tolower b = 107 then (0, some .OPAL_LK)
      else (EINVAL, lstate) := by
  have hlen : ¬ (strlen (a :: b :: rest) < 2) := by simp [strlen]
  have hrw := strncasecmp_two a b rest 82 87 (by decide)
  have hro := strncasecmp_two a b rest 82 79 (by decide)
  have hlk := strncasecmp_two a b rest 76 75 (by decide)
  have e82 : tolower 82 = 114 := by decide
  have e87 : tolower 87 = 119 := by decide
  have e79 : tolower 79 = 111 := by decide
  have e76 : tolower 76 = 108 := by decide
  have e75 : tolower 75 = 107 := by decide
  rw [e82, e87] at hrw
  rw [e82, e79] at hro
  rw [e76, e75] at hlk
  simp only [get_lock, hlen, if_false, cstr_RW, cstr_RO, cstr_LK, hrw, hro, hlk]

/-- A token none of whose two-byte prefixes is a lock-type word, ignoring
case, is refused by `get_lock`, which leaves `*lstate` as it was. -/
theorem get_lock_refuses (lock : CStr) (lstate : Option opal_lock_state)
    (hbad : ∀ w ∈ lockWords, ¬ beginsNoCase lock w) :
    get_lock lock lstate = (EINVAL, lstate) := by
  have hrw := hbad (cstr "RW") (by simp [lockWords])
  have hro := hbad (cstr "RO") (by simp [lockWords])
  have hlk := hbad (cstr "LK") (by simp [lockWords])
  simp only [beginsNoCase, eqNoCase, cstr_RW, cstr_RO, cstr_LK] at hrw hro hlk
  rcases lock with _ | ⟨a, _ | ⟨b, rest⟩⟩
  · simp [get_lock, strlen]
  · simp [get_lock, strlen]
  · have e82 : tolower 82 = 114 := by decide
    have e87 : tolower 87 = 119 := by decide
    have e79 : tolower 79 = 111 := by decide
    have e76 : tolower 76 = 108 := by decide
    have e75 : tolower 75 = 107 := by decide
    simp only [List.length_cons, List.length_nil, List.take_succ_cons, List.take_zero,
      List.map_cons, List.map_nil, e82, e87, e79, e76, e75, List.cons.injEq, and_true]
      at hrw hro hlk
    rw [get_lock_cons_cons, if_neg hrw, if_neg hro, if_neg hlk]

/-- A run of `do_generic_lkul` in which `get_lock` refuses the lock type ends
in a return without control call, with `EINVAL` once the device is open. -/
theorem do_generic_lkul_lock_refused (t : Target) (cmd : IoctlCmd) (env : Env)
    (cfg : lkul_config) (lock : CStr) (hl : cfg.lock_type = some lock)
    (hg : ∀ lstate, get_lock lock lstate = (EINVAL, lstate)) :
    (do_generic_lkul t cmd env cfg).outcome.issued = none ∧
    (0 < env.fd → (do_generic_lkul t cmd env cfg).outcome = .ret EINVAL) := by
  have hE : EINVAL ≠ 0 := by decide
  obtain ⟨lr, user, lock_type, password, sum⟩ := cfg
  simp only at hl
  subst hl
  by_cases hfd : env.fd ≤ 0
  · refine ⟨by simp [do_generic_lkul, hfd, Outcome.issued], fun h => by omega⟩
  · suffices h : (do_generic_lkul t cmd env ⟨lr, user, some lock, password, sum⟩).outcome
        = .ret EINVAL by
      rw [h]
      exact ⟨rfl, fun _ => rfl⟩
    unfold do_generic_lkul
    simp only [hfd, if_false, hg, hE, ne_eq, not_false_eq_true, if_true]
    repeat' split
    all_goals first
      | rfl
      | (rename_i h1 h2; cases sum <;> cases user <;> cases password <;> simp_all)

/-- C3, as stated, fails: the token `RWX` equals none of the three words,
ignoring case, yet `get_lock` returns 0 and sets the lock state to `OPAL_RW`,
and `do_generic_lkul` issues the control call. -/
theorem get_lock_accepts_RWX :
    (∀ w ∈ lockWords, ¬ eqNoCase (cstr "RWX") w) ∧
    get_lock (cstr "RWX") none = (0, some .OPAL_RW) ∧
    ((do_generic_lkul linux64 .IOC_OPAL_LOCK_UNLOCK env3
        ⟨1, some (cstr "user1"), some (cstr "RWX"), some (cstr "pw"), false⟩).outcome.issued.map
      fun p => (p.1, p.2.l_state)) = some (.IOC_OPAL_LOCK_UNLOCK, some .OPAL_RW) := by
  decide

/-- C3, amended: for every lock-type token whose first two bytes are not,
ignoring letter case, one of "RW", "RO" or "LK" (a token of fewer than two
bytes included), `get_lock` returns the non-zero `EINVAL` and leaves the lock
state unset, and `do_generic_lkul` issues no control call and, once the device
is open, returns `EINVAL`. -/
theorem get_lock_rejects_other_prefix (t : Target) (cmd : IoctlCmd) (env : Env)
    (cfg : lkul_config) (lock : CStr) (lstate : Option opal_lock_state)
    (hl : cfg.lock_type = some lock)
    (hbad : ∀ w ∈ lockWords, ¬ beginsNoCase lock w) :
    get_lock lock lstate = (EINVAL, lstate) ∧ EINVAL ≠ 0 ∧
    (do_generic_lkul t cmd env cfg).outcome.issued = none ∧
    (0 < env.fd → (do_generic_lkul t cmd env cfg).outcome = .ret EINVAL) :=
  ⟨get_lock_refuses lock lstate hbad, by decide,
   do_generic_lkul_lock_refused t cmd env cfg lock hl
     (fun l => get_lock_refuses lock l hbad)⟩

/-- C3, amended, on the token `W`, on the 64-bit target. -/
theorem get_lock_rejects_other_prefix_witness :
    get_lock (cstr "W") none = (EINVAL, none) ∧ EINVAL ≠ 0 ∧
    (do_generic_lkul linux64 .IOC_OPAL_LOCK_UNLOCK env3
      ⟨1, some (cstr "user1"), some (cstr "W"), some (cstr "pw"), false⟩).outcome.issued
        = none ∧
    (0 < env3.fd →
      (do_generic_lkul linux64 .IOC_OPAL_LOCK_UNLOCK env3
        ⟨1, some (cstr "user1"), some (cstr "W"), some (cstr "pw"), false⟩).outcome
          = .ret EINVAL) :=
  get_lock_rejects_other_prefix linux64 .IOC_OPAL_LOCK_UNLOCK env3
    ⟨1, some (cstr "user1"), some (cstr "W"), some (cstr "pw"), false⟩ (cstr "W") none
    rfl (by decide)

/-! ### `get_user` and `sed_enable_user` -/

/-- `strncasecmp a b n` is 0 when the first `n` bytes of both, lowered, are
the same. -/
theorem strncasecmp_eq_zero_of_take :
    ∀ (n : Nat) (a b : CStr), (a.take n).map tolower = (b.take n).map tolower →
      n ≤ a.length → n ≤ b.length → strncasecmp a b n = 0
  | 0, _, _, _, _, _ => by simp [strncasecmp]
  | n + 1, [], _, _, ha, _ => by simp at ha
  | n + 1, _ :: _, [], _, _, hb => by simp at hb
  | n + 1, x :: a, y :: b, h, ha, hb => by
    simp only [List.take_succ_cons, List.map_cons, List.cons.injEq] at h
    have ih := strncasecmp_eq_zero_of_take n a b h.2 (by simpa using ha) (by simpa using hb)
    simp only [strncasecmp, List.headD_cons, List.tail_cons, h.1, ne_eq, not_true_eq_false,
      if_false, ih, ite_self]

/-- Every token of at least five bytes that begins, ignoring case, with
"admin" resolves to Admin1. -/
theorem get_user_admin (t : Target) (user : CStr) (who : Nat)
    (hlen : 5 ≤ strlen user) (hadm : beginsNoCase user (cstr "admin")) :
    get_user t user who = (0, OPAL_ADMIN1) := by
  have h5 : (cstr "admin").length = 5 := by decide
  have hcmp : strncasecmp user (cstr "admin") 5 = 0 := by
    apply strncasecmp_eq_zero_of_take
    · unfold beginsNoCase eqNoCase at hadm
      rw [h5] at hadm
      rw [hadm]
      decide
    · exact hlen
    · decide
  have hl : ¬ strlen user < 5 := by omega
  simp only [get_user, hl, if_false, hcmp, if_true]

/-- When `get_user` returns 0 the identity it has set is Admin1 or one of
User1..User9. -/
theorem get_user_ok_range (t : Target) (user : CStr) (who n : Nat)
    (h : get_user t user who = (0, n)) :
    n = OPAL_ADMIN1 ∨ (OPAL_USER1 ≤ n ∧ n ≤ OPAL_USER9) := by
  have hE : ¬ (-EINVAL = 0) := by decide
  unfold get_user at h
  split at h
  · simp [hE] at h
  · split at h
    · simp only [Prod.mk.injEq, true_and] at h
      exact Or.inl h.symm
    · split at h
      · split at h
        · simp [hE] at h
        · simp only at h
          split at h
          · simp [hE] at h
          · rename_i hr
            simp only [Prod.mk.injEq, true_and] at h
            right
            rw [← h]
            omega
      · simp [hE] at h

/-- The control call `sed_enable_user` issues, when it issues one, is
`IOC_OPAL_ACTIVATE_USR` for one of User1..User9. -/
theorem sed_enable_user_issued_range (t : Target) (env : Env) (cfg : enable_user_config)
    (cmd : IoctlCmd) (k : opal_session_info)
    (h : (sed_enable_user t env cfg).outcome.issued = some (cmd, k)) :
    cmd = .IOC_OPAL_ACTIVATE_USR ∧ OPAL_USER1 ≤ k.who ∧ k.who ≤ OPAL_USER9 := by
  obtain ⟨user, password⟩ := cfg
  cases user with
  | none =>
    unfold sed_enable_user at h
    simp only [call_ioctl] at h
    repeat' split at h
    all_goals simp [Outcome.issued] at h
  | some user =>
    rcases hg : get_user t user 0 with ⟨e, n⟩
    have hn := get_user_ok_range t user 0 n
    unfold sed_enable_user at h
    simp only [call_ioctl, opal_session_info.zero, hg] at h
    repeat' split at h
    all_goals first
      | (simp [Outcome.issued] at h; done)
      | (rename_i he hadm
         simp only [Outcome.issued, Option.some.injEq, Prod.mk.injEq] at h
         obtain ⟨rfl, rfl⟩ := h
         have he0 : e = 0 := by simpa using he
         subst he0
         rcases hn hg with h0 | hr
         · exact absurd h0 hadm
         · exact ⟨rfl, hr⟩)

/-- A run of `sed_enable_user` on a token that resolves to Admin1 ends in a
return without control call, with `EINVAL` once the device is open. -/
theorem sed_enable_user_admin (t : Target) (env : Env) (cfg : enable_user_config)
    (user : CStr) (hu : cfg.user = some user)
    (hadm : get_user t user 0 = (0, OPAL_ADMIN1)) :
    (sed_enable_user t env cfg).outcome.issued = none ∧
    (0 < env.fd → (sed_enable_user t env cfg).outcome = .ret EINVAL) := by
  obtain ⟨u, password⟩ := cfg
  simp only at hu
  subst hu
  by_cases hfd : env.fd ≤ 0
  · refine ⟨by simp [sed_enable_user, hfd, Outcome.issued], fun h => by omega⟩
  · suffices h : (sed_enable_user t env ⟨some user, password⟩).outcome = .ret EINVAL by
      rw [h]
      exact ⟨rfl, fun _ => rfl⟩
    unfold sed_enable_user
    simp only [hfd, if_false, opal_session_info.zero, hadm, ne_eq, not_true_eq_false,
      if_true]
    repeat' split
    all_goals rfl

/-- The other handlers issue the request code of their own command, never
`IOC_OPAL_ACTIVATE_USR`. -/
theorem do_generic_lkul_issued_cmd (t : Target) (c : IoctlCmd) (env : Env)
    (cfg : lkul_config) (cmd : IoctlCmd) (k : opal_lock_unlock)
    (h : (do_generic_lkul t c env cfg).outcome.issued = some (cmd, k)) : cmd = c := by
  unfold do_generic_lkul at h
  simp only [call_ioctl] at h
  repeat' split at h
  all_goals first
    | (simp [Outcome.issued] at h; done)
    | (simp only [Outcome.issued, Option.some.injEq, Prod.mk.injEq] at h
       exact h.1.symm)

theorem do_generic_opal_issued_cmd (t : Target) (c : IoctlCmd) (env : Env)
    (cfg : opal_config) (cmd : IoctlCmd) (k : opal_key)
    (h : (do_generic_opal t c env cfg).outcome.issued = some (cmd, k)) : cmd = c := by
  unfold do_generic_opal at h
  simp only [call_ioctl] at h
  repeat' split at h
  all_goals first
    | (simp [Outcome.issued] at h; done)
    | (simp only [Outcome.issued, Option.some.injEq, Prod.mk.injEq] at h
       exact h.1.symm)

theorem sed_erase_lr_issued_cmd (t : Target) (session0 : opal_session_info) (env : Env)
    (cfg : erase_lr_config) (cmd : IoctlCmd) (k : opal_session_info)
    (h : (sed_erase_lr t session0 env cfg).outcome.issued = some (cmd, k)) :
    cmd = .IOC_OPAL_ERASE_LR := by
  unfold sed_erase_lr at h
  simp only [call_ioctl] at h
  repeat' split at h
  all_goals first
    | (simp [Outcome.issued] at h; done)
    | (simp only [Outcome.issued, Option.some.injEq, Prod.mk.injEq] at h
       exact h.1.symm)

theorem sed_secure_erase_lr_issued_cmd (t : Target) (env : Env)
    (cfg : secure_erase_lr_config) (cmd : IoctlCmd) (k : opal_session_info)
    (h : (sed_secure_erase_lr t env cfg).outcome.issued = some (cmd, k)) :
    cmd = .IOC_OPAL_SECURE_ERASE_LR := by
  unfold sed_secure_erase_lr at h
  simp only [call_ioctl] at h
  repeat' split at h
  all_goals first
    | (simp [Outcome.issued] at h; done)
    | (simp only [Outcome.issued, Option.some.injEq, Prod.mk.injEq] at h
       exact h.1.symm)

theorem sed_setuplr_issued_cmd (t : Target) (env : Env)
    (cfg : setuplr_config) (cmd : IoctlCmd) (k : opal_user_lr_setup)
    (h : (sed_setuplr t env cfg).outcome.issued = some (cmd, k)) :
    cmd = .IOC_OPAL_LR_SETUP := by
  unfold sed_setuplr at h
  simp only [call_ioctl] at h
  repeat' split at h
  all_goals first
    | (simp [Outcome.issued] at h; done)
    | (simp only [Outcome.issued, Option.some.injEq, Prod.mk.injEq] at h
       exact h.1.symm)

theorem sed_shadowmbr_issued_cmd (t : Target) (env : Env)
    (cfg : shadowmbr_config) (cmd : IoctlCmd) (k : opal_mbr_data)
    (h : (sed_shadowmbr t env cfg).outcome.issued = some (cmd, k)) :
    cmd = .IOC_OPAL_ENABLE_DISABLE_MBR := by
  unfold sed_shadowmbr at h
  simp only [call_ioctl] at h
  repeat' split at h
  all_goals first
    | (simp [Outcome.issued] at h; done)
    | (simp only [Outcome.issued, Option.some.injEq, Prod.mk.injEq] at h
       exact h.1.symm)

theorem sed_setpw_issued_cmd (t : Target) (env : Env)
    (cfg : setpw_config) (cmd : IoctlCmd) (k : opal_new_pw)
    (h : (sed_setpw t env cfg).outcome.issued = some (cmd, k)) :
    cmd = .IOC_OPAL_SET_PW := by
  unfold sed_setpw at h
  simp only [call_ioctl] at h
  repeat' split at h
  all_goals first
    | (simp [Outcome.issued] at h; done)
    | (simp only [Outcome.issued, Option.some.injEq, Prod.mk.injEq] at h
       exact h.1.symm)

theorem sed_activatelsp_issued_cmd (t : Target) (fuel : Nat) (env : Env)
    (cfg : activatelsp_config) (r : Run opal_lr_act) (cmd : IoctlCmd) (k : opal_lr_act)
    (hr : sed_activatelsp t fuel env cfg = some r)
    (h : r.outcome.issued = some (cmd, k)) : cmd = .IOC_OPAL_ACTIVATE_LSP := by
  unfold sed_activatelsp at hr
  simp only [call_ioctl] at hr
  repeat' split at hr
  all_goals first
    | (simp only [Option.some.injEq] at hr
       subst hr
       simp [Outcome.issued] at h)
    | (rw [Option.map_eq_some'] at hr
       obtain ⟨act, _, rfl⟩ := hr
       simp only [Outcome.issued, Option.some.injEq, Prod.mk.injEq] at h
       exact h.1.symm)

/-- C10: for every token of at least five bytes that begins, ignoring case,
with "admin", `get_user` resolves it to Admin1 and `sed_enable_user`, whatever
the password, issues no control call and (the device being open) returns
`EINVAL`; whenever `sed_enable_user` issues the control call, the request is
`IOC_OPAL_ACTIVATE_USR` and the identity in the payload is one of
User1..User9; and no other handler issues `IOC_OPAL_ACTIVATE_USR`. -/
theorem sed_enable_user_never_admin (t : Target) (env : Env) (cfg : enable_user_config) :
    (∀ user, cfg.user = some user → 5 ≤ strlen user →
      beginsNoCase user (cstr "admin") →
        (∀ who, get_user t user who = (0, OPAL_ADMIN1)) ∧
        (sed_enable_user t env cfg).outcome.issued = none ∧
        (0 < env.fd → (sed_enable_user t env cfg).outcome = .ret EINVAL)) ∧
    (∀ cmd k, (sed_enable_user t env cfg).outcome.issued = some (cmd, k) →
      cmd = .IOC_OPAL_ACTIVATE_USR ∧ OPAL_USER1 ≤ k.who ∧ k.who ≤ OPAL_USER9) ∧
    (∀ e c cmd k, ((sed_save t e c).outcome.issued = some (cmd, k)
        ∨ (sed_lock_unlock t e c).outcome.issued = some (cmd, k)
        ∨ (sed_add_usr_to_lr t e c).outcome.issued = some (cmd, k)) →
      cmd ≠ .IOC_OPAL_ACTIVATE_USR) ∧
    (∀ e c cmd k, ((sed_ownership t e c).outcome.issued = some (cmd, k)
        ∨ (sed_reverttper t e c).outcome.issued = some (cmd, k)) →
      cmd ≠ .IOC_OPAL_ACTIVATE_USR) ∧
    (∀ fuel e c r cmd k, sed_activatelsp t fuel e c = some r →
      r.outcome.issued = some (cmd, k) → cmd ≠ .IOC_OPAL_ACTIVATE_USR) ∧
    (∀ e c cmd k, (sed_setuplr t e c).outcome.issued = some (cmd, k) →
      cmd ≠ .IOC_OPAL_ACTIVATE_USR) ∧
    (∀ e c cmd k, (sed_shadowmbr t e c).outcome.issued = some (cmd, k) →
      cmd ≠ .IOC_OPAL_ACTIVATE_USR) ∧
    (∀ e c cmd k, (sed_setpw t e c).outcome.issued = some (cmd, k) →
      cmd ≠ .IOC_OPAL_ACTIVATE_USR) ∧
    (∀ session0 e c cmd k, (sed_erase_lr t session0 e c).outcome.issued = some (cmd, k) →
      cmd ≠ .IOC_OPAL_ACTIVATE_USR) ∧
    (∀ e c cmd k, (sed_secure_erase_lr t e c).outcome.issued = some (cmd, k) →
      cmd ≠ .IOC_OPAL_ACTIVATE_USR) := by
  refine ⟨?_, sed_enable_user_issued_range t env cfg, ?_, ?_, ?_, ?_, ?_, ?_, ?_, ?_⟩
  · intro user hu hlen hadm
    exact ⟨fun who => get_user_admin t user who hlen hadm,
      sed_enable_user_admin t env cfg user hu (get_user_admin t user 0 hlen hadm)⟩
  · intro e c cmd k h
    rcases h with h | h | h <;>
      (rw [do_generic_lkul_issued_cmd t _ e c cmd k h]; decide)
  · intro e c cmd k h
    rcases h with h | h <;>
      (rw [do_generic_opal_issued_cmd t _ e c cmd k h]; decide)
  · intro fuel e c r cmd k hr h
    rw [sed_activatelsp_issued_cmd t fuel e c r cmd k hr h]
    decide
  · intro e c cmd k h
    rw [sed_setuplr_issued_cmd t e c cmd k h]
    decide
  · intro e c cmd k h
    rw [sed_shadowmbr_issued_cmd t e c cmd k h]
    decide
  · intro e c cmd k h
    rw [sed_setpw_issued_cmd t e c cmd k h]
    decide
  · intro session0 e c cmd k h
    rw [sed_erase_lr_issued_cmd t session0 e c cmd k h]
    decide
  · intro e c cmd k h
    rw [sed_secure_erase_lr_issued_cmd t e c cmd k h]
    decide

/-- C10 on the token `Admin1`, on the 64-bit target. -/
theorem sed_enable_user_never_admin_witness :
    get_user linux64 (cstr "Admin1") 5 = (0, OPAL_ADMIN1) ∧
    (sed_enable_user linux64 env3 ⟨some (cstr "Admin1"), some (cstr "pw")⟩).outcome
      = .ret EINVAL :=
  have h := (sed_enable_user_never_admin linux64 env3
    ⟨some (cstr "Admin1"), some (cstr "pw")⟩).1 (cstr "Admin1") rfl (by decide) (by decide)
  ⟨h.1 5, h.2.2 (by decide)⟩

/-! ### The range-list loop of `sed_activatelsp` -/

/-- Once the loop is at a token that `strtoul` does not convert, with room
left in the array, it never leaves: no amount of fuel ends it. -/
theorem lr_loop_stuck (t : Target) (tok : CStr) (h : strtoul t.longBits tok = none) :
    ∀ (fuel : Nat) (st : LrLoop), st.num = some tok → st.count < t.OPAL_MAX_LRS →
      lr_loop t fuel st = none
  | 0, _, _, _ => rfl
  | fuel + 1, st, hn, hc => by
    have ih := lr_loop_stuck t tok h fuel st hn hc
    unfold lr_loop
    simp only [hn, hc, if_true, h]
    exact ih

theorem strtoul_x (n : Nat) : strtoul n [120] = none := by
  have hs : scanNumber [120] = (false, []) := by decide
  unfold strtoul
  rw [hs]

theorem strtoul_1_isSome (n : Nat) : ∃ v, strtoul n [49] = some v := by
  have hs : scanNumber [49] = (false, [49]) := by decide
  unfold strtoul
  rw [hs]
  exact ⟨_, rfl⟩

/-- C5: the range list `1,x,3` given to `sed_activatelsp` (device open,
password given, room for two ranges or more): the loop records `1`, reaches
the token `x`, and then evaluates its condition for ever; whatever the fuel,
the handler does not get past the loop. -/
theorem sed_activatelsp_hangs_on_non_numeric (t : Target) (fuel : Nat) (env : Env)
    (sum : Bool) (pw : CStr) (hfd : 0 < env.fd) (hmax : 2 ≤ t.OPAL_MAX_LRS) :
    sed_activatelsp t fuel env ⟨sum, some pw, some (cstr "1,x,3")⟩ = none := by
  have hfd' : ¬ env.fd ≤ 0 := by omega
  have hloop : lr_loop t fuel (lr_loop_init t (cstr "1,x,3")) = none := by
    have h1 : strtok (cstr "1,x,3") 44 = (some [49], [120, 44, 51]) := by decide
    have h2 : strtok [120, 44, 51] 44 = (some [120], [51]) := by decide
    cases fuel with
    | zero => rfl
    | succ fuel =>
      obtain ⟨v, hv⟩ := strtoul_1_isSome t.longBits
      have h0 : 0 < t.OPAL_MAX_LRS := by omega
      unfold lr_loop
      simp only [lr_loop_init, h1, h0, if_true, hv, h2]
      exact lr_loop_stuck t [120] (strtoul_x _) fuel _ rfl (by simpa using hmax)
  simp [sed_activatelsp, hfd', hloop]

/-- C5 on the 64-bit target with a fuel of 1000. -/
theorem sed_activatelsp_hangs_on_non_numeric_witness :
    sed_activatelsp linux64 1000 env3 ⟨true, some (cstr "pw"), some (cstr "1,x,3")⟩ = none :=
  sed_activatelsp_hangs_on_non_numeric linux64 1000 env3 true (cstr "pw")
    (by decide) (by decide)

/-! ### The range-list loop on a list of numerals -/

theorem foldl_digits (ds : List Nat) (acc : Nat) :
    (numeral ds).foldl (fun a d => a * 10 + (d - 48)) acc
      = acc * 10 ^ ds.length + Nat.ofDigits 10 ds.reverse := by
  induction ds generalizing acc with
  | nil => simp [numeral]
  | cons d ds ih =>
    have ih' := ih (acc * 10 + d)
    simp only [numeral, List.map_cons, List.foldl_cons, Nat.add_sub_cancel] at ih' ⊢
    rw [ih', List.reverse_cons, Nat.ofDigits_append, List.length_reverse, List.length_cons,
      Nat.ofDigits_singleton]
    ring

/-- The digits of a numeral are read back as the number it denotes. -/
theorem digitsValue_numeral (ds : List Nat) : digitsValue (numeral ds) = numeralValue ds := by
  unfold digitsValue numeralValue
  rw [foldl_digits]
  simp

theorem takeWhile_append_of_all {p : Nat → Bool} :
    ∀ (a b : List Nat), (∀ x ∈ a, p x = true) →
      (a ++ b).takeWhile p = a ++ b.takeWhile p
  | [], _, _ => rfl
  | x :: a, b, h => by
    have hx : p x = true := h x (by simp)
    have ih := takeWhile_append_of_all a b (fun y hy => h y (by simp [hy]))
    simp [List.takeWhile_cons, hx, ih]

theorem dropWhile_append_of_all {p : Nat → Bool} :
    ∀ (a b : List Nat), (∀ x ∈ a, p x = true) →
      (a ++ b).dropWhile p = b.dropWhile p
  | [], _, _ => rfl
  | x :: a, b, h => by
    have hx : p x = true := h x (by simp)
    have ih := dropWhile_append_of_all a b (fun y hy => h y (by simp [hy]))
    simp [List.dropWhile_cons, hx, ih]

theorem numeral_ne_nil (ds : List Nat) (h : IsNumeral ds) : numeral ds ≠ [] := by
  unfold numeral
  simpa using h.1

theorem numeral_bytes (ds : List Nat) (h : IsNumeral ds) :
    ∀ x ∈ numeral ds, 48 ≤ x ∧ x ≤ 57 := by
  intro x hx
  unfold numeral at hx
  rw [List.mem_map] at hx
  obtain ⟨d, hd, rfl⟩ := hx
  have := h.2 d hd
  omega

/-- Scanning a numeral: no sign, and all of it digits. -/
theorem scanNumber_numeral (ds : List Nat) (h : IsNumeral ds) :
    scanNumber (numeral ds) = (false, numeral ds) := by
  have hb := numeral_bytes ds h
  have hne := numeral_ne_nil ds h
  have hdig : ∀ x ∈ numeral ds, isdigit x = true := by
    intro x hx
    have := hb x hx
    simp [isdigit, this.1, this.2]
  have htw : (numeral ds).takeWhile isdigit = numeral ds := by
    have := takeWhile_append_of_all (numeral ds) [] hdig
    simpa using this
  unfold scanNumber
  rcases hnd : numeral ds with _ | ⟨c, r⟩
  · exact absurd hnd hne
  · have hc := hb c (by simp [hnd])
    have hsp : isspace c = false := by
      simp only [isspace, Bool.or_eq_false_iff, beq_eq_false_iff_ne, ne_eq,
        Bool.and_eq_false_iff, decide_eq_false_iff_not, not_le]
      omega
    rw [hnd] at htw
    simp only [List.dropWhile_cons, hsp, Bool.false_eq_true, if_false]
    split
    · rename_i heq
      have h45 : c = 45 := (List.cons.inj heq).1
      omega
    · rename_i heq
      have h43 : c = 43 := (List.cons.inj heq).1
      omega
    · rw [htw]

/-- `strtoul` converts a numeral to the number it denotes, if that fits an
`unsigned long`. -/
theorem strtoul_numeral (n : Nat) (ds : List Nat) (h : IsNumeral ds)
    (hfit : numeralValue ds < 2 ^ n) : strtoul n (numeral ds) = some (numeralValue ds) := by
  have hne := numeral_ne_nil ds h
  unfold strtoul
  rw [scanNumber_numeral ds h]
  rcases hnd : numeral ds with _ | ⟨c, r⟩
  · exact absurd hnd hne
  · simp only
    rw [← hnd, digitsValue_numeral]
    have h1 : ¬ numeralValue ds > 2 ^ n - 1 := by omega
    simp [h1]

/-- `strtol` converts a numeral to the number it denotes, if that fits a
`long`. -/
theorem strtol_numeral (n : Nat) (ds : List Nat) (h : IsNumeral ds)
    (hfit : numeralValue ds < 2 ^ (n - 1)) :
    strtol n (numeral ds) = some (numeralValue ds : Int) := by
  have hne := numeral_ne_nil ds h
  have hfit' : ((numeralValue ds : Nat) : Int) < (2 : Int) ^ (n - 1) := by exact_mod_cast hfit
  have h0 : (0 : Int) ≤ ((numeralValue ds : Nat) : Int) := Int.natCast_nonneg _
  unfold strtol
  rw [scanNumber_numeral ds h]
  rcases hnd : numeral ds with _ | ⟨c, r⟩
  · exact absurd hnd hne
  · simp only
    rw [← hnd, digitsValue_numeral]
    simp only [Bool.false_eq_true, if_false]
    rw [if_neg (by omega), if_neg (by omega)]

/-- `strtok` on a token without comma followed by a comma: the token, and the
position after the comma. -/
theorem strtok_token_comma (a rest : CStr) (hne : a ≠ []) (hno : ∀ x ∈ a, x ≠ 44) :
    strtok (a ++ 44 :: rest) 44 = (some a, rest) := by
  rcases a with _ | ⟨c, a⟩
  · exact absurd rfl hne
  · have hc : (c == 44) = false := by simpa using hno c (by simp)
    have hall : ∀ x ∈ c :: a, (x != 44) = true := by
      intro x hx
      simpa using hno x hx
    have h1 := takeWhile_append_of_all (c :: a) (44 :: rest) hall
    have h2 := dropWhile_append_of_all (c :: a) (44 :: rest) hall
    have hd : (c :: a ++ 44 :: rest).dropWhile (fun x => x == 44) = c :: a ++ 44 :: rest := by
      simp [List.dropWhile_cons, hc]
    unfold strtok
    simp only [hd]
    simp only [List.cons_append] at h1 h2 ⊢
    rw [h1, h2]
    simp

/-- `strtok` on a last token without comma: the token, and the end of the
string. -/
theorem strtok_token_end (a : CStr) (hne : a ≠ []) (hno : ∀ x ∈ a, x ≠ 44) :
    strtok a 44 = (some a, []) := by
  rcases a with _ | ⟨c, a⟩
  · exact absurd rfl hne
  · have hc : (c == 44) = false := by simpa using hno c (by simp)
    have hall : ∀ x ∈ c :: a, (x != 44) = true := by
      intro x hx
      simpa using hno x hx
    have h1 := takeWhile_append_of_all (c :: a) [] hall
    have h2 := dropWhile_append_of_all (c :: a) [] hall
    have hd : (c :: a).dropWhile (fun x => x == 44) = c :: a := by
      simp [List.dropWhile_cons, hc]
    simp only [List.append_nil, List.takeWhile_nil, List.dropWhile_nil] at h1 h2
    unfold strtok
    simp only [hd]
    rw [h1, h2]
    simp

/-- `strtok` on comma-separated tokens: the first token, and the rest of the
list. -/
theorem strtok_joinComma (a : CStr) (r : List CStr) (hne : a ≠ [])
    (hno : ∀ x ∈ a, x ≠ 44) : strtok (joinComma (a :: r)) 44 = (some a, joinComma r) := by
  cases r with
  | nil => exact strtok_token_end a hne hno
  | cons b r => exact strtok_token_comma a (joinComma (b :: r)) hne hno

theorem strtok_nil : strtok [] 44 = (none, []) := rfl

theorem numeral_no_comma (ds : List Nat) (h : IsNumeral ds) : ∀ x ∈ numeral ds, x ≠ 44 := by
  intro x hx
  have := numeral_bytes ds h x hx
  omega

theorem set_append_replicate (pre : List Nat) (n v : Nat) :
    (pre ++ List.replicate (n + 1) 0).set pre.length v
      = (pre ++ [v]) ++ List.replicate n 0 := by
  induction pre with
  | nil => simp [List.replicate_succ]
  | cons x pre ih => simpa using ih

/-- The loop on a list of numerals that fit: started at the first of them with
`count = c`, it ends, once the fuel covers one evaluation of the condition per
numeral and one more, with every value stored in order from index `c` on. -/
theorem lr_loop_numerals (t : Target) :
    ∀ (rest : List (List Nat)) (tok : List Nat) (fuel c : Nat) (pre : List Nat),
      (∀ ds ∈ tok :: rest, IsNumeral ds ∧ numeralValue ds < 2 ^ t.longBits
        ∧ numeralValue ds < 2 ^ t.lrElemBits) →
      pre.length = c → c + 1 + rest.length ≤ t.OPAL_MAX_LRS → rest.length + 2 ≤ fuel →
      lr_loop t fuel
        { num := some (numeral tok), saved := joinComma (rest.map numeral), count := c,
          lr := pre ++ List.replicate (t.OPAL_MAX_LRS - c) 0 }
        = some
          { num := none, saved := [], count := c + 1 + rest.length,
            lr := (pre ++ (tok :: rest).map numeralValue)
              ++ List.replicate (t.OPAL_MAX_LRS - (c + 1 + rest.length)) 0 } := by
  intro rest
  induction rest with
  | nil =>
    intro tok fuel c pre hall hpre hroom hfuel
    obtain ⟨hnum, hlong, helem⟩ := hall tok (by simp)
    obtain ⟨f, rfl⟩ : ∃ f, fuel = f + 2 := ⟨fuel - 2, by simp at hfuel; omega⟩
    have hc : c < t.OPAL_MAX_LRS := by simp at hroom; omega
    have hrep : t.OPAL_MAX_LRS - c = (t.OPAL_MAX_LRS - (c + 1)) + 1 := by omega
    unfold lr_loop
    simp only [hc, if_true, strtoul_numeral _ _ hnum hlong, List.map_nil, joinComma,
      strtok_nil, Nat.mod_eq_of_lt helem]
    unfold lr_loop
    simp only [List.length_nil, Nat.add_zero, List.map_cons, List.map_nil]
    rw [hrep, ← hpre, set_append_replicate]
  | cons nxt rest ih =>
    intro tok fuel c pre hall hpre hroom hfuel
    obtain ⟨hnum, hlong, helem⟩ := hall tok (by simp)
    obtain ⟨hnxt, _, _⟩ := hall nxt (by simp)
    obtain ⟨f, rfl⟩ : ∃ f, fuel = f + 1 := ⟨fuel - 1, by simp at hfuel; omega⟩
    simp only [List.length_cons] at hroom hfuel
    have hc : c < t.OPAL_MAX_LRS := by omega
    have hrep : t.OPAL_MAX_LRS - c = (t.OPAL_MAX_LRS - (c + 1)) + 1 := by omega
    have hih := ih nxt f (c + 1) (pre ++ [numeralValue tok])
      (fun ds hds => hall ds (by simp at hds ⊢; tauto)) (by simp [hpre]) (by omega) (by omega)
    unfold lr_loop
    simp only [hc, if_true, strtoul_numeral _ _ hnum hlong, List.map_cons,
      strtok_joinComma _ _ (numeral_ne_nil _ hnxt) (numeral_no_comma _ hnxt),
      Nat.mod_eq_of_lt helem]
    rw [hrep, ← hpre, set_append_replicate]
    simp only [hpre]
    rw [hih]
    have e1 : c + 1 + 1 + rest.length = c + 1 + (rest.length + 1) := by omega
    rw [e1]
    simp

/-- C6: for every range list made of `k` decimal numerals separated by
commas, `1 <= k <= OPAL_MAX_LRS`, each value fitting one element of the range
array (and `unsigned long`), and the count field holding `k`: with the device
open and a password given or obtained at the prompt, `sed_activatelsp` gets
through its loop as soon as the fuel exceeds `k` and issues
`IOC_OPAL_ACTIVATE_LSP` with `num_lrs = k` and `lr` holding the `k` values in
input order, followed by zeros. -/
theorem sed_activatelsp_range_list (t : Target) (env : Env) (sum : Bool)
    (password : Option CStr) (nums : List (List Nat)) (fuel : Nat) (hfd : 0 < env.fd)
    (hpw : password.isSome = true ∨ env.read_password.isSome = true)
    (hnum : ∀ ds ∈ nums, IsNumeral ds ∧ numeralValue ds < 2 ^ t.longBits
      ∧ numeralValue ds < 2 ^ t.lrElemBits)
    (hk1 : 1 ≤ nums.length) (hk : nums.length ≤ t.OPAL_MAX_LRS)
    (hcnt : nums.length < 2 ^ t.numLrsBits) (hfuel : nums.length < fuel) :
    ∃ r a, sed_activatelsp t fuel env ⟨sum, password, some (joinComma (nums.map numeral))⟩
        = some r ∧
      r.outcome.issued = some (.IOC_OPAL_ACTIVATE_LSP, a) ∧
      a.sum = sum ∧ a.num_lrs = nums.length ∧
      a.lr = nums.map numeralValue ++ List.replicate (t.OPAL_MAX_LRS - nums.length) 0 := by
  have hfd' : ¬ env.fd ≤ 0 := by omega
  rcases nums with _ | ⟨tok, rest⟩
  · simp at hk1
  · obtain ⟨htok, _, _⟩ := hnum tok (by simp)
    simp only [List.length_cons] at hk hcnt hfuel
    have hloop := lr_loop_numerals t rest tok fuel 0 [] hnum rfl (by omega) (by omega)
    simp only [List.nil_append, Nat.sub_zero, Nat.zero_add] at hloop
    have hinit : lr_loop_init t (joinComma ((tok :: rest).map numeral))
        = { num := some (numeral tok), saved := joinComma (rest.map numeral), count := 0,
            lr := List.replicate t.OPAL_MAX_LRS 0 } := by
      simp only [lr_loop_init, List.map_cons,
        strtok_joinComma _ _ (numeral_ne_nil _ htok) (numeral_no_comma _ htok)]
    have hmod : (1 + rest.length) % 2 ^ t.numLrsBits = rest.length + 1 := by
      rw [Nat.mod_eq_of_lt (by omega)]
      omega
    have hguard : (password.isNone
        && (if password.isNone = true then env.read_password else password).isNone) = false := by
      cases password with
      | none =>
        rcases hpw with h | h
        · simp at h
        · cases hrp : env.read_password with
          | none => rw [hrp] at h; simp at h
          | some p => simp
      | some p => simp
    have hrun : sed_activatelsp t fuel env
          ⟨sum, password, some (joinComma ((tok :: rest).map numeral))⟩
        = some (call_ioctl t env password.isNone .IOC_OPAL_ACTIVATE_LSP
            { key := set_key t (opal_key.zero t)
                (if password.isNone = true then env.read_password else password),
              sum := sum,
              num_lrs := (1 + rest.length) % 2 ^ t.numLrsBits,
              lr := List.map numeralValue (tok :: rest)
                ++ List.replicate (t.OPAL_MAX_LRS - (1 + rest.length)) 0 }) := by
      simp only [sed_activatelsp, hfd', if_false, Option.isNone_some, Bool.and_false,
        Bool.or_false, Bool.not_false, Bool.true_and, Bool.and_self, hguard,
        Bool.false_eq_true, hinit, hloop, Option.map_some']
    have e : 1 + rest.length = rest.length + 1 := by omega
    refine ⟨_, _, hrun, rfl, rfl, ?_, ?_⟩
    · simp only [List.length_cons]
      exact hmod
    · simp only [List.length_cons]
      rw [e]

/-- C6 on the range list `1,2,3` with SUM requested, on the 64-bit target:
count 3 and values 1, 2, 3 in order, the other six elements zero. -/
theorem sed_activatelsp_range_list_witness :
    ∃ r a, sed_activatelsp linux64 4 env3 ⟨true, some (cstr "pw"), some (cstr "1,2,3")⟩
        = some r ∧
      r.outcome.issued = some (.IOC_OPAL_ACTIVATE_LSP, a) ∧
      a.sum = true ∧ a.num_lrs = 3 ∧ a.lr = [1, 2, 3, 0, 0, 0, 0, 0, 0] :=
  sed_activatelsp_range_list linux64 env3 true (some (cstr "pw")) [[1], [2], [3]] 4
    (by decide) (Or.inl rfl) (by simp [IsNumeral, numeralValue, linux64]) (by decide)
    (by decide) (by decide) (by decide)

/-! ### What holds of the claims that fail -/

/-- The part of C1 that holds: a password shorter than the key buffer, whose
length the field `key_len` can hold, is stored whole, NUL-terminated, and
`key_len` is its length. -/
theorem set_key_of_short_password (t : Target) (pw : CStr)
    (hfit : pw.length < t.keySize) (hlen : pw.length < 2 ^ t.keyLenBits) :
    (set_key t (opal_key.zero t) (some pw)).key_len = pw.length ∧
    (set_key t (opal_key.zero t) (some pw)).key.take (pw.length + 1) = pw ++ [0] ∧
    (set_key t (opal_key.zero t) (some pw)).key.length = t.keySize := by
  have h0 : ¬ t.keySize = 0 := by omega
  have htake : pw.take (t.keySize - 1) = pw := List.take_of_length_le (by omega)
  refine ⟨?_, ?_, ?_⟩
  · simp only [set_key, snprintf, strlen, Option.getD_some]
    exact Nat.mod_eq_of_lt hlen
  · simp only [set_key, snprintf, Option.getD_some, h0, if_false, htake, opal_key.zero]
    rw [List.take_append_of_le_length (by simp)]
    exact List.take_of_length_le (by simp)
  · simp only [set_key, snprintf, Option.getD_some, h0, if_false, htake, opal_key.zero,
      List.length_append, List.length_drop, List.length_replicate, List.length_singleton]
    omega

/-- After the statement that fixes an empty key up, `key_len` is not 0. -/
theorem fix_empty_key_key_len_ne_zero (k : opal_key) : (fix_empty_key k).key_len ≠ 0 := by
  unfold fix_empty_key
  split
  · simp
  · assumption

/-- The part of C4 that holds: with the fix-up, an empty password becomes one
zero byte of length 1. -/
theorem fix_empty_key_of_empty_password (t : Target) (hk : 1 ≤ t.keySize) :
    (fix_empty_key (set_key t (opal_key.zero t) (some []))).key_len = 1 ∧
    (fix_empty_key (set_key t (opal_key.zero t) (some []))).key.head? = some 0 := by
  have h0 : ¬ t.keySize = 0 := by omega
  refine ⟨?_, ?_⟩
  · simp [fix_empty_key, set_key, snprintf, strlen]
  · simp [fix_empty_key, set_key, snprintf, strlen, h0]

/-- The handlers with the fix-up, `do_generic_lkul` here, never issue the
control call with `key_len = 0`. -/
theorem do_generic_lkul_key_len_ne_zero (t : Target) (c : IoctlCmd) (env : Env)
    (cfg : lkul_config) (cmd : IoctlCmd) (k : opal_lock_unlock)
    (h : (do_generic_lkul t c env cfg).outcome.issued = some (cmd, k)) :
    k.session.opal_key.key_len ≠ 0 := by
  unfold do_generic_lkul at h
  simp only [call_ioctl] at h
  repeat' split at h
  all_goals first
    | (simp [Outcome.issued] at h; done)
    | (simp only [Outcome.issued, Option.some.injEq, Prod.mk.injEq] at h
       obtain ⟨_, rfl⟩ := h
       exact fix_empty_key_key_len_ne_zero _)

/-- The part of C8 that holds: in `sed_enable_user`, which has the block of
`sed_secure_erase_lr` with `||` in its second test, a missing password that
the prompt does not supply ends the run with `EINVAL` and no control call. -/
theorem sed_enable_user_without_password (t : Target) (env : Env) (user : Option CStr)
    (hfd : 0 < env.fd) (hrp : env.read_password = none) :
    (sed_enable_user t env ⟨user, none⟩).outcome = .ret EINVAL := by
  have hfd' : ¬ env.fd ≤ 0 := by omega
  cases user <;> simp [sed_enable_user, hfd', hrp]

/-- The part of C8 that holds, for `do_generic_lkul`, `do_generic_opal`,
`sed_setuplr`, `sed_shadowmbr`, `sed_erase_lr`, `sed_activatelsp` and
`sed_setpw` (either password): no password, and none from the prompt, ends the
run with `EINVAL` and no control call. -/
theorem other_handlers_without_password (t : Target) (env : Env)
    (hfd : 0 < env.fd) (hrp : env.read_password = none) :
    (∀ c lr user lock sum,
      (do_generic_lkul t c env ⟨lr, user, lock, none, sum⟩).outcome = .ret EINVAL) ∧
    (∀ c lr, (do_generic_opal t c env ⟨lr, none⟩).outcome = .ret EINVAL) ∧
    (∀ lr user sum rle wle rs rl,
      (sed_setuplr t env ⟨lr, user, none, sum, rle, wle, rs, rl⟩).outcome = .ret EINVAL) ∧
    (∀ e, (sed_shadowmbr t env ⟨none, e⟩).outcome = .ret EINVAL) ∧
    (∀ session0 lr user sum,
      (sed_erase_lr t session0 env ⟨lr, user, none, sum⟩).outcome = .ret EINVAL) ∧
    (∀ fuel sum lr_str, (sed_activatelsp t fuel env ⟨sum, none, lr_str⟩).map Run.outcome
      = some (.ret EINVAL)) ∧
    (∀ a u n sum, (sed_setpw t env ⟨a, u, none, n, sum⟩).outcome = .ret EINVAL) ∧
    (∀ a u n sum, (sed_setpw t env ⟨a, u, n, none, sum⟩).outcome = .ret EINVAL) := by
  have hfd' : ¬ env.fd ≤ 0 := by omega
  refine ⟨?_, ?_, ?_, ?_, ?_, ?_, ?_, ?_⟩
  · intro c lr user lock sum
    cases user <;> cases lock <;> cases sum <;> simp [do_generic_lkul, hfd', hrp]
  · intro c lr
    simp [do_generic_opal, hfd', hrp]
  · intro lr user sum rle wle rs rl
    unfold sed_setuplr
    simp only [hfd', if_false, hrp, Option.isNone_none, Bool.or_true, Bool.true_and,
      Bool.and_true, ite_self]
    split
    · rfl
    · rename_i h
      exact absurd trivial h
  · intro e
    simp [sed_shadowmbr, hfd', hrp]
  · intro session0 lr user sum
    cases user <;> cases sum <;> simp [sed_erase_lr, hfd', hrp]
  · intro fuel sum lr_str
    cases lr_str <;> cases sum <;> simp [sed_activatelsp, hfd', hrp]
  · intro a u n sum
    cases a <;> cases u <;> cases n <;> simp [sed_setpw, hfd']
  · intro a u n sum
    cases a <;> cases u <;> cases n <;> simp [sed_setpw, hfd']

/-- `strncasecmp a b n` is 0 exactly when the first `n` bytes of both,
lowered, are the same, for `b` without a NUL among them. -/
theorem strncasecmp_eq_zero_iff :
    ∀ (n : Nat) (a b : CStr), n ≤ a.length → n ≤ b.length →
      (∀ x ∈ b.take n, tolower x ≠ 0) →
      (strncasecmp a b n = 0 ↔ (a.take n).map tolower = (b.take n).map tolower)
  | 0, _, _, _, _, _ => by simp [strncasecmp]
  | n + 1, [], _, ha, _, _ => by simp at ha
  | n + 1, _ :: _, [], _, hb, _ => by simp at hb
  | n + 1, x :: a, y :: b, ha, hb, hz => by
    have ih := strncasecmp_eq_zero_iff n a b (by simpa using ha) (by simpa using hb)
      (fun z hz' => hz z (by simp [hz']))
    have hy : tolower y ≠ 0 := hz y (by simp)
    by_cases hxy : tolower x = tolower y
    · have hx : tolower x ≠ 0 := by rw [hxy]; exact hy
      simp only [strncasecmp, List.headD_cons, List.tail_cons, hxy, ne_eq, not_true_eq_false,
        if_false, hy, ih, List.take_succ_cons, List.map_cons, List.cons.injEq, true_and]
    · have hne : ¬ ((tolower x : Int) - (tolower y : Int) = 0) := by
        rw [sub_eq_zero]; exact_mod_cast hxy
      simp [strncasecmp, hxy, hne]

/-- The part of C2 that holds: `get_user` returns `-EINVAL` and leaves the
identity as it was for a token shorter than five bytes, for a token that
begins, ignoring case, with neither "admin" nor "user", and for "user"
followed by a numeral whose value fits `long` and `unsigned int` and lies
outside 1..9. -/
theorem get_user_rejects (t : Target) (user : CStr) (who : Nat) :
    (strlen user < 5 → get_user t user who = (-EINVAL, who)) ∧
    (¬ beginsNoCase user (cstr "admin") → ¬ beginsNoCase user (cstr "user") →
      get_user t user who = (-EINVAL, who)) ∧
    (∀ ds, IsNumeral ds → user = cstr "user" ++ numeral ds →
      numeralValue ds < 2 ^ (t.longBits - 1) → numeralValue ds < 2 ^ 32 →
      (numeralValue ds < 1 ∨ 9 < numeralValue ds) →
      get_user t user who = (-EINVAL, who)) := by
  refine ⟨?_, ?_, ?_⟩
  · intro h
    simp [get_user, h]
  · intro hadm husr
    by_cases hlen : strlen user < 5
    · simp [get_user, hlen]
    · have hl : 5 ≤ user.length := by unfold strlen at hlen; omega
      have h1 : ¬ strncasecmp user (cstr "admin") 5 = 0 := by
        rw [strncasecmp_eq_zero_iff 5 user (cstr "admin") hl (by decide) (by decide)]
        exact hadm
      have h2 : ¬ strncasecmp user (cstr "user") 4 = 0 := by
        rw [strncasecmp_eq_zero_iff 4 user (cstr "user") (by omega) (by decide) (by decide)]
        exact husr
      simp only [get_user, hlen, if_false, h1, h2]
  · intro ds hds hu hlong hint hout
    have hne := numeral_ne_nil ds hds
    have hcs : cstr "user" = [117, 115, 101, 114] := by decide
    rw [hcs] at hu
    subst hu
    have hlen : ¬ strlen ([117, 115, 101, 114] ++ numeral ds) < 5 := by
      rcases hnd : numeral ds with _ | ⟨c, r⟩
      · exact absurd hnd hne
      · simp [strlen]
    have h1 : ¬ strncasecmp ([117, 115, 101, 114] ++ numeral ds) (cstr "admin") 5 = 0 := by
      have ha : cstr "admin" = [97, 100, 109, 105, 110] := by decide
      rw [ha]
      simp [strncasecmp, tolower]
    have h2 : strncasecmp ([117, 115, 101, 114] ++ numeral ds) (cstr "user") 4 = 0 := by
      rw [hcs]
      simp [strncasecmp, tolower]
    have h3 : ([117, 115, 101, 114] ++ numeral ds).drop 4 = numeral ds := by simp
    have h4 : toUInt (numeralValue ds : Int) = numeralValue ds := by
      unfold toUInt
      rw [Int.emod_eq_of_lt (Int.natCast_nonneg _) (by exact_mod_cast hint)]
      simp
    have h5 : numeralValue ds < OPAL_USER1 ∨ numeralValue ds > OPAL_USER9 := by
      unfold OPAL_USER1 OPAL_USER9
      omega
    simp only [get_user, hlen, if_false, h1, h2, if_true, h3,
      strtol_numeral _ _ hds hlong, h4, h5]

theorem fd_error_ne_zero (fd : Int) : fd_error fd ≠ 0 := by
  unfold fd_error
  split
  · decide
  · omega

/-- The second half of C2, for tokens `get_user` does refuse: every handler
that resolves a user token returns a non-zero code without issuing the control
call when `get_user` returns non-zero. -/
theorem handlers_user_not_resolved (t : Target) (env : Env) (user : CStr)
    (hbad : ∀ who, (get_user t user who).1 ≠ 0) :
    (∀ c lr lock pw,
      (do_generic_lkul t c env ⟨lr, some user, lock, pw, false⟩).outcome.failed = true) ∧
    (∀ lr pw rle wle rs rl,
      (sed_setuplr t env ⟨lr, some user, pw, false, rle, wle, rs, rl⟩).outcome.failed = true) ∧
    (∀ a n apw sum, (sed_setpw t env ⟨a, some user, n, apw, sum⟩).outcome.failed = true) ∧
    (∀ u n apw sum, (sed_setpw t env ⟨some user, u, n, apw, sum⟩).outcome.failed = true) ∧
    (∀ pw, (sed_enable_user t env ⟨some user, pw⟩).outcome.failed = true) ∧
    (∀ session0 lr pw,
      (sed_erase_lr t session0 env ⟨lr, some user, pw, false⟩).outcome.failed = true) ∧
    (∀ pw lr sum,
      (sed_secure_erase_lr t env ⟨some user, pw, lr, sum⟩).outcome.failed = true) := by
  have hE : (EINVAL != 0) = true := by decide
  have hE' : (-EINVAL != 0) = true := by decide
  have hfdE : (fd_error env.fd != 0) = true := by
    simpa using fd_error_ne_zero env.fd
  refine ⟨?_, ?_, ?_, ?_, ?_, ?_, ?_⟩
  · intro c lr lock pw
    unfold do_generic_lkul
    simp only [call_ioctl, Bool.not_false, if_true, Option.map_some']
    repeat' split
    all_goals first
      | exact hfdE
      | exact hE
      | simp_all
  · intro lr pw rle wle rs rl
    unfold sed_setuplr
    simp only [call_ioctl, Bool.not_false, if_true, Option.map_some']
    repeat' split
    all_goals first
      | exact hfdE
      | exact hE
      | exact hE'
      | simp_all
  · intro a n apw sum
    unfold sed_setpw
    simp only [call_ioctl]
    repeat' split
    all_goals first
      | exact hfdE
      | exact hE
      | exact hE'
      | simp_all
  · intro u n apw sum
    unfold sed_setpw
    simp only [call_ioctl]
    repeat' split
    all_goals first
      | exact hfdE
      | exact hE
      | exact hE'
      | simp_all
  · intro pw
    unfold sed_enable_user
    simp only [call_ioctl]
    repeat' split
    all_goals first
      | exact hfdE
      | exact hE
      | simp_all
  · intro session0 lr pw
    unfold sed_erase_lr
    simp only [call_ioctl, Bool.not_false, if_true, Option.map_some']
    repeat' split
    all_goals first
      | exact hfdE
      | exact hE
      | simp_all
  · intro pw lr sum
    unfold sed_secure_erase_lr
    simp only [call_ioctl]
    repeat' split
    all_goals first
      | exact hfdE
      | exact hE
      | simp_all

/-! ### A device path that is not a block device -/

/-- `open_dev` on a path that opens and on which `fstat` succeeds, but whose
mode is not that of a block device. -/
theorem open_dev_not_block (d : DevCalls) (ho : 0 ≤ d.open_ret) (hf : 0 ≤ d.fstat_ret)
    (hb : d.is_blk = false) : open_dev d = -ENODEV := by
  unfold open_dev
  rw [if_neg (by omega), if_neg (by omega)]
  simp [hb]

/-- `parse_and_open`, once the options are parsed and a device argument is
there, is `open_dev`. -/
theorem parse_and_open_eq_open_dev (optind argc : Int) (d : DevCalls)
    (harg : optind < argc) : parse_and_open 0 optind argc d = open_dev d := by
  have h : ¬ optind ≥ argc := by omega
  simp [parse_and_open, get_dev, check_arg_dev, h]

theorem fd_error_neg_ENODEV : fd_error (-ENODEV) = ENODEV := by decide

/-- C11: the options are parsed and a device path is given; the path opens
and `fstat` succeeds, but the file is not a block device.  Then `open_dev`
returns `-ENODEV`, and every command handler returns the non-zero `ENODEV`
without calling `read_password` and without issuing a control call (the loop
of `sed_activatelsp` is not reached, whatever the fuel). -/
theorem handlers_reject_non_block_device (t : Target) (env : Env) (optind argc : Int)
    (d : DevCalls) (harg : optind < argc) (ho : 0 ≤ d.open_ret) (hf : 0 ≤ d.fstat_ret)
    (hb : d.is_blk = false) (hfd : env.fd = parse_and_open 0 optind argc d) :
    open_dev d = -ENODEV ∧ ENODEV ≠ 0 ∧
    (∀ c cfg, do_generic_lkul t c env cfg = ⟨false, .ret ENODEV⟩) ∧
    (∀ cfg, sed_save t env cfg = ⟨false, .ret ENODEV⟩) ∧
    (∀ cfg, sed_lock_unlock t env cfg = ⟨false, .ret ENODEV⟩) ∧
    (∀ cfg, sed_add_usr_to_lr t env cfg = ⟨false, .ret ENODEV⟩) ∧
    (∀ c cfg, do_generic_opal t c env cfg = ⟨false, .ret ENODEV⟩) ∧
    (∀ cfg, sed_ownership t env cfg = ⟨false, .ret ENODEV⟩) ∧
    (∀ cfg, sed_reverttper t env cfg = ⟨false, .ret ENODEV⟩) ∧
    (∀ fuel cfg, sed_activatelsp t fuel env cfg = some ⟨false, .ret ENODEV⟩) ∧
    (∀ cfg, sed_setuplr t env cfg = ⟨false, .ret ENODEV⟩) ∧
    (∀ cfg, sed_shadowmbr t env cfg = ⟨false, .ret ENODEV⟩) ∧
    (∀ cfg, sed_setpw t env cfg = ⟨false, .ret ENODEV⟩) ∧
    (∀ cfg, sed_enable_user t env cfg = ⟨false, .ret ENODEV⟩) ∧
    (∀ session0 cfg, sed_erase_lr t session0 env cfg = ⟨false, .ret ENODEV⟩) ∧
    (∀ cfg, sed_secure_erase_lr t env cfg = ⟨false, .ret ENODEV⟩) := by
  have hopen := open_dev_not_block d ho hf hb
  have hfd' : env.fd = -ENODEV := by
    rw [hfd, parse_and_open_eq_open_dev optind argc d harg, hopen]
  have hle : env.fd ≤ 0 := by rw [hfd']; decide
  have herr : fd_error env.fd = ENODEV := by rw [hfd']; exact fd_error_neg_ENODEV
  have hlkul : ∀ c cfg, do_generic_lkul t c env cfg = ⟨false, .ret ENODEV⟩ := by
    intro c cfg
    simp only [do_generic_lkul, hle, if_true, herr]
  have hopal : ∀ c cfg, do_generic_opal t c env cfg = ⟨false, .ret ENODEV⟩ := by
    intro c cfg
    simp only [do_generic_opal, hle, if_true, herr]
  refine ⟨hopen, by decide, hlkul, fun cfg => hlkul _ cfg, fun cfg => hlkul _ cfg,
    fun cfg => hlkul _ cfg, hopal, fun cfg => hopal _ cfg, fun cfg => hopal _ cfg,
    ?_, ?_, ?_, ?_, ?_, ?_, ?_⟩
  · intro fuel cfg
    simp only [sed_activatelsp, hle, if_true, herr]
  · intro cfg
    simp only [sed_setuplr, hle, if_true, herr]
  · intro cfg
    simp only [sed_shadowmbr, hle, if_true, herr]
  · intro cfg
    simp only [sed_setpw, hle, if_true, herr]
  · intro cfg
    simp only [sed_enable_user, hle, if_true, herr]
  · intro session0 cfg
    simp only [sed_erase_lr, hle, if_true, herr]
  · intro cfg
    simp only [sed_secure_erase_lr, hle, if_true, herr]

/-- C11 on a regular file that opens as descriptor 3, on the 64-bit target:
take-ownership returns `ENODEV`, unprompted, with no control call. -/
theorem handlers_reject_non_block_device_witness :
    open_dev ⟨3, 0, false⟩ = -ENODEV ∧
    sed_ownership linux64 ⟨-19, some (cstr "pw"), 0, "Success"⟩ ⟨0, none⟩
      = ⟨false, .ret ENODEV⟩ :=
  have h := handlers_reject_non_block_device linux64
    ⟨-19, some (cstr "pw"), 0, "Success"⟩ 2 3 ⟨3, 0, false⟩
    (by decide) (by decide) (by decide) rfl (by decide)
  ⟨h.1, h.2.2.2.2.2.2.2.1 ⟨0, none⟩⟩

/-! ### `get_user` on `userN` and `admin1` in any letter-casing -/

/-- C12: for every letter-casing `w` of the word "user" and every `N` in
1..9, `get_user` on `w` followed by the digit `N` returns 0 and sets the
identity to `N`, a value from `OPAL_USER1` to `OPAL_USER9`; and for every
letter-casing of "admin1" it returns 0 and sets the identity to
`OPAL_ADMIN1`.  (`long` has five bits or more, so that 9 fits it.) -/
theorem get_user_any_casing (t : Target) (who : Nat) (hlong : 5 ≤ t.longBits) :
    (∀ (w : CStr) (N : Nat), eqNoCase w (cstr "user") → 1 ≤ N → N ≤ 9 →
      get_user t (w ++ numeral [N]) who = (0, N) ∧ OPAL_USER1 ≤ N ∧ N ≤ OPAL_USER9) ∧
    (∀ tok : CStr, eqNoCase tok (cstr "admin1") →
      get_user t tok who = (0, OPAL_ADMIN1)) := by
  refine ⟨?_, ?_⟩
  · intro w N hw h1 h9
    have hcs : (cstr "user").map tolower = [117, 115, 101, 114] := by decide
    unfold eqNoCase at hw
    rw [hcs] at hw
    rcases w with _ | ⟨a, _ | ⟨b, _ | ⟨c, _ | ⟨d, _ | ⟨e, r⟩⟩⟩⟩⟩ <;>
      simp only [List.map_cons, List.map_nil, List.cons.injEq, and_true, reduceCtorEq,
        and_false] at hw
    obtain ⟨ha, hb', hc, hd⟩ := hw
    have hnum : IsNumeral [N] := ⟨by simp, by simp; omega⟩
    have hval : numeralValue [N] = N := by simp [numeralValue]
    have hpow : 2 ^ 4 ≤ 2 ^ (t.longBits - 1) := Nat.pow_le_pow_right (by norm_num) (by omega)
    have hfit : numeralValue [N] < 2 ^ (t.longBits - 1) := by rw [hval]; omega
    have hlen : ¬ strlen ([a, b, c, d] ++ numeral [N]) < 5 := by simp [strlen, numeral]
    have e97 : tolower 97 = 97 := by decide
    have hadm : ¬ strncasecmp ([a, b, c, d] ++ numeral [N]) (cstr "admin") 5 = 0 := by
      have hx : cstr "admin" = [97, 100, 109, 105, 110] := by decide
      rw [hx]
      simp [strncasecmp, ha, e97]
    have husr : strncasecmp ([a, b, c, d] ++ numeral [N]) (cstr "user") 4 = 0 := by
      apply strncasecmp_eq_zero_of_take
      · have hx : ((cstr "user").take 4).map tolower = [117, 115, 101, 114] := by decide
        rw [hx]
        simp [ha, hb', hc, hd]
      · simp
      · decide
    have hdrop : ([a, b, c, d] ++ numeral [N]).drop 4 = numeral [N] := by simp
    have hu : toUInt (numeralValue [N] : Int) = N := by
      rw [hval]
      unfold toUInt
      rw [Int.emod_eq_of_lt (Int.natCast_nonneg _) (by omega)]
      simp
    have hrange : ¬ (N < OPAL_USER1 ∨ N > OPAL_USER9) := by
      unfold OPAL_USER1 OPAL_USER9
      omega
    refine ⟨?_, h1, h9⟩
    simp only [get_user, hlen, if_false, hadm, husr, if_true, hdrop,
      strtol_numeral _ _ hnum hfit, hu, hrange]
  · intro tok htok
    have hlen6 : tok.length = 6 := by
      have := congrArg List.length htok
      simpa [eqNoCase] using this
    apply get_user_admin
    · unfold strlen; omega
    · unfold beginsNoCase eqNoCase
      have h5 : (cstr "admin").length = 5 := by decide
      unfold eqNoCase at htok
      rw [h5, List.map_take, htok]
      decide

/-- C12 on `UsEr7` and `ADMIN1`, on the 64-bit target. -/
theorem get_user_any_casing_witness :
    get_user linux64 (cstr "UsEr7") 0 = (0, 7) ∧
    get_user linux64 (cstr "ADMIN1") 3 = (0, OPAL_ADMIN1) :=
  ⟨((get_user_any_casing linux64 0 (by decide)).1 (cstr "UsEr") 7 (by decide) (by decide)
      (by decide)).1,
   (get_user_any_casing linux64 3 (by decide)).2 (cstr "ADMIN1") (by decide)⟩

/-! ### The range index of the keys of `sed_setpw` -/

/-- The field `lr` written by `k.lr = who - 1` when it has eight bits. -/
theorem lr_of_who_eight_bits (t : Target) (hlr : t.lrBits = 8) (who : Nat) :
    ((lr_of_who t who : Nat) : Int) = ((who : Int) - 1) % 256 ∧
    (1 ≤ who → who ≤ 9 → lr_of_who t who = who - 1) ∧
    (who = OPAL_ADMIN1 → lr_of_who t who = 255) := by
  have h256 : (2 : Int) ^ 8 = 256 := by norm_num
  have hnn : 0 ≤ ((who : Int) - 1) % 256 := Int.emod_nonneg _ (by norm_num)
  refine ⟨?_, ?_, ?_⟩
  · unfold lr_of_who
    rw [hlr, h256, Int.toNat_of_nonneg hnn]
  · intro h1 h9
    unfold lr_of_who
    rw [hlr, h256]
    omega
  · intro h0
    unfold OPAL_ADMIN1 at h0
    subst h0
    unfold lr_of_who
    rw [hlr]
    decide

/-- The control call `sed_setpw` issues when the device is open, all four
strings are given and both tokens resolve. -/
theorem sed_setpw_issued (t : Target) (env : Env) (auth user newpw authpw : CStr)
    (sum : Bool) (n a : Nat) (hfd : 0 < env.fd)
    (hu : get_user t user 0 = (0, n)) (ha : get_user t auth 0 = (0, a)) :
    (sed_setpw t env ⟨some auth, some user, some newpw, some authpw, sum⟩).outcome.issued
      = some (.IOC_OPAL_SET_PW,
          { session :=
              { sum := sum, who := a,
                opal_key := fix_empty_key (set_key t
                  { opal_key.zero t with lr := lr_of_who t a } (some authpw)) },
            new_user_pw :=
              { sum := false, who := n,
                opal_key := set_key t
                  { opal_key.zero t with lr := lr_of_who t n } (some newpw) } }) := by
  have hfd' : ¬ env.fd ≤ 0 := by omega
  simp only [sed_setpw, hfd', if_false, opal_session_info.zero, hu, ha, ne_eq,
    not_true_eq_false, call_ioctl, Outcome.issued]

theorem set_key_lr (t : Target) (k : opal_key) (pw : Option CStr) :
    (set_key t k pw).lr = k.lr := rfl

theorem fix_empty_key_lr (k : opal_key) : (fix_empty_key k).lr = k.lr := by
  unfold fix_empty_key
  split <;> rfl

/-- C13: in `sed_setpw`, with the field `lr` of eight bits, the device open
and all four strings given, for every pair of tokens that `get_user`
resolves the control call is issued with, in each of the two keys, the range
index `(who - 1) mod 256` of the identity beside it: `N - 1` for user `N`
(1 <= N <= 9) and 255 for Admin1 (identity 0). -/
theorem sed_setpw_range_index (t : Target) (env : Env) (auth user newpw authpw : CStr)
    (sum : Bool) (n a : Nat) (hlr : t.lrBits = 8) (hfd : 0 < env.fd)
    (hu : get_user t user 0 = (0, n)) (ha : get_user t auth 0 = (0, a)) :
    ∃ k, (sed_setpw t env ⟨some auth, some user, some newpw, some authpw, sum⟩).outcome.issued
        = some (.IOC_OPAL_SET_PW, k) ∧
      k.session.who = a ∧ k.new_user_pw.who = n ∧
      ((k.session.opal_key.lr : Nat) : Int) = ((k.session.who : Int) - 1) % 256 ∧
      ((k.new_user_pw.opal_key.lr : Nat) : Int) = ((k.new_user_pw.who : Int) - 1) % 256 ∧
      (1 ≤ a → a ≤ 9 → k.session.opal_key.lr = a - 1) ∧
      (1 ≤ n → n ≤ 9 → k.new_user_pw.opal_key.lr = n - 1) ∧
      (a = OPAL_ADMIN1 → k.session.opal_key.lr = 255) ∧
      (n = OPAL_ADMIN1 → k.new_user_pw.opal_key.lr = 255) := by
  have hs : ∀ pw, (fix_empty_key (set_key t
      { opal_key.zero t with lr := lr_of_who t a } pw)).lr = lr_of_who t a := by
    intro pw
    rw [fix_empty_key_lr, set_key_lr]
  have hn : ∀ pw, (set_key t
      { opal_key.zero t with lr := lr_of_who t n } pw).lr = lr_of_who t n := fun _ => rfl
  obtain ⟨ha1, ha2, ha3⟩ := lr_of_who_eight_bits t hlr a
  obtain ⟨hn1, hn2, hn3⟩ := lr_of_who_eight_bits t hlr n
  refine ⟨_, sed_setpw_issued t env auth user newpw authpw sum n a hfd hu ha,
    rfl, rfl, ?_, ?_, ?_, ?_, ?_, ?_⟩
  · simp only [hs]; exact ha1
  · simp only [hn]; exact hn1
  · simp only [hs]; exact ha2
  · simp only [hn]; exact hn2
  · simp only [hs]; exact ha3
  · simp only [hn]; exact hn3

/-- C13 on `set-password -u user2 -p admin1` on the 64-bit target: range
index 255 in the session key, 1 in the key of the new password. -/
theorem sed_setpw_range_index_witness :
    ∃ k, (sed_setpw linux64 env3
        ⟨some (cstr "admin1"), some (cstr "user2"), some (cstr "new"), some (cstr "old"),
          false⟩).outcome.issued = some (.IOC_OPAL_SET_PW, k) ∧
      k.session.who = 0 ∧ k.new_user_pw.who = 2 ∧
      k.session.opal_key.lr = 255 ∧ k.new_user_pw.opal_key.lr = 1 :=
  have ⟨k, h, hw, hnw, _, _, _, hn, ha, _⟩ :=
    sed_setpw_range_index linux64 env3 (cstr "admin1") (cstr "user2") (cstr "new")
      (cstr "old") false 2 0 rfl (by decide) (by decide) (by decide)
  ⟨k, h, hw, hnw, ha rfl, hn (by decide) (by decide)⟩

end SedOpal
